import Mathlib

/-!
Verification of the artifact-keeper example format-handler plugins.

Strings from the Rust source are modelled as lists of Unicode code points
(`List Nat`); byte buffers (`Vec<u8>`) are modelled as `List Nat` whose
elements are intended to be `< 256`.  Rust `Result` is modelled by `Except`,
`Option` by `Option`.  Each plugin lives in its own namespace (`Pypi`, `Rpm`,
`Unity`) mirroring the three crates.
-/

deriving instance DecidableEq for Except

/-- Code points of a string literal. -/
def str (s : String) : List Nat := s.data.map Char.toNat

/-- ASCII digit test, as in Rust `char::is_ascii_digit`. -/
def isDigitN (c : Nat) : Bool := 48 ≤ c ∧ c ≤ 57

/-- ASCII letter test, as in Rust `char::is_ascii_alphabetic`. -/
def isAsciiAlphaN (c : Nat) : Bool := (65 ≤ c ∧ c ≤ 90) ∨ (97 ≤ c ∧ c ≤ 122)

/-- ASCII alphanumeric test, as in Rust `char::is_ascii_alphanumeric`. -/
def isAlphanumN (c : Nat) : Bool := isDigitN c || isAsciiAlphaN c

/-- Lowercase one character (ASCII range; agrees with Rust `to_lowercase`
on the ASCII paths and names this code handles). -/
def toLowerN (c : Nat) : Nat := if 65 ≤ c ∧ c ≤ 90 then c + 32 else c

/-- Lowercase a whole string, as in Rust `str::to_lowercase`. -/
def lowerL (s : List Nat) : List Nat := s.map toLowerN

/-- Rust `str::ends_with`. -/
def endsWithL (suf s : List Nat) : Bool := suf.isSuffixOf s

/-- Rust `str::strip_suffix`: remove `suf` from the end if present. -/
def stripSuf (suf s : List Nat) : Option (List Nat) :=
  if suf.isSuffixOf s then some (s.take (s.length - suf.length)) else none

/-- Rust `str::strip_prefix`: remove `pre` from the front if present. -/
def stripPre (pre s : List Nat) : Option (List Nat) :=
  if pre.isPrefixOf s then some (s.drop pre.length) else none

/-- Rust `str::rsplit_once(sep)`: split at the last occurrence of `sep`. -/
def rsplitOnce (sep : Nat) : List Nat → Option (List Nat × List Nat)
  | [] => none
  | c :: rest =>
    match rsplitOnce sep rest with
    | some (l, r) => some (c :: l, r)
    | none => if c = sep then some ([], rest) else none

/-- Rust `path.rsplit('/').next().unwrap_or(path)`: the final path segment. -/
def lastSegment (p : List Nat) : List Nat :=
  match rsplitOnce 47 p with
  | some (_, r) => r
  | none => p

/-- Rust `str::split(sep)` (always yields at least one, possibly empty, field). -/
def splitOnSep (sep : Nat) : List Nat → List (List Nat)
  | [] => [[]]
  | c :: rest =>
    match splitOnSep sep rest with
    | [] => [[]]
    | seg :: segs => if c = sep then [] :: seg :: segs else (c :: seg) :: segs

/-- Rust `str::trim_end_matches(sep)`. -/
def trimTrailing (sep : Nat) (s : List Nat) : List Nat :=
  ((s.reverse).dropWhile (· = sep)).reverse

/-- Decimal rendering of a natural number, as Rust `Display` for integers. -/
def natToDec (n : Nat) : List Nat :=
  if h : n < 10 then [48 + n]
  else natToDec (n / 10) ++ [48 + n % 10]
decreasing_by exact Nat.div_lt_self (by omega) (by omega)

/-- One hex digit (lowercase), for Rust `{:02x}` formatting. -/
def hexDigit (n : Nat) : Nat := if n < 10 then 48 + n else 87 + n

/-- Two-digit lowercase hex of a byte, as Rust `{:02x}`. -/
def hexByte (n : Nat) : List Nat := [hexDigit (n / 16 % 16), hexDigit (n % 16)]

/-- The `metadata` record of the plugin interface. -/
structure Metadata where
  path : List Nat
  version : Option (List Nat)
  content_type : List Nat
  size_bytes : Nat
  checksum_sha256 : Option (List Nat)
deriving DecidableEq

/-- The `http-request` record of the plugin interface. -/
structure HttpRequest where
  method : List Nat
  path : List Nat
  query : List Nat
  headers : List (List Nat × List Nat)
  body : List Nat
deriving DecidableEq

/-- The `http-response` record of the plugin interface. -/
structure HttpResponse where
  status : Nat
  headers : List (List Nat × List Nat)
  body : List Nat
deriving DecidableEq

/-- The `repo-context` record of the plugin interface. -/
structure RepoContext where
  repo_key : List Nat
  base_url : List Nat
  download_base_url : List Nat
deriving DecidableEq

namespace Pypi

/-- `normalize_package_name`, collapse phase: the loop with its
`prev_was_separator` state. -/
def collapse : List Nat → Bool → List Nat
  | [], _ => []
  | c :: rest, prev =>
    if isAlphanumN c then c :: collapse rest false
    else if prev then collapse rest true
    else 45 :: collapse rest true

/-- Rust `str::trim_matches('-')`. -/
def trimDash (s : List Nat) : List Nat :=
  (((s.dropWhile (· = 45)).reverse.dropWhile (· = 45))).reverse

/-- `normalize_package_name` from the PyPI plugin: lowercase, collapse runs of
non-alphanumerics to a single `-`, trim `-` from both ends. -/
def normalize_package_name (name : List Nat) : List Nat :=
  trimDash (collapse (lowerL name) false)

/-- `extract_package_name` from the PyPI plugin. -/
def extract_package_name (filename : List Nat) : Option (List Nat) :=
  match stripSuf (str ".whl") filename with
  | some stem => (splitOnSep 45 stem).head?
  | none =>
    match stripSuf (str ".tar.gz") filename with
    | some stem => (rsplitOnce 45 stem).map (·.1)
    | none =>
      match stripSuf (str ".zip") filename with
      | some stem => (rsplitOnce 45 stem).map (·.1)
      | none => none

/-- `extract_version` from the PyPI plugin. -/
def extract_version (filename : List Nat) : Option (List Nat) :=
  match stripSuf (str ".whl") filename with
  | some stem =>
    let parts := splitOnSep 45 stem
    if 2 ≤ parts.length then parts[1]? else none
  | none =>
    match stripSuf (str ".tar.gz") filename with
    | some stem => (rsplitOnce 45 stem).map (·.2)
    | none =>
      match stripSuf (str ".zip") filename with
      | some stem => (rsplitOnce 45 stem).map (·.2)
      | none => none

/-- `parse_metadata` from the PyPI plugin. -/
def parse_metadata (path : List Nat) (data : List Nat) : Except (List Nat) Metadata :=
  if data = [] then .error (str "Empty file")
  else
    let filename := lastSegment path
    let version := extract_version filename
    let content_type :=
      if endsWithL (str ".whl") filename || endsWithL (str ".zip") filename then
        str "application/zip"
      else if endsWithL (str ".tar.gz") filename then str "application/gzip"
      else str "application/octet-stream"
    .ok ⟨path, version, content_type, data.length, none⟩

/-- `validate` from the PyPI plugin. -/
def validate (path : List Nat) (data : List Nat) : Except (List Nat) Unit :=
  if data = [] then .error (str "Python package cannot be empty")
  else if path = [] then .error (str "Artifact path cannot be empty")
  else
    let filename := lastSegment path
    let lower := lowerL filename
    if ¬(endsWithL (str ".whl") lower || endsWithL (str ".tar.gz") lower ||
         endsWithL (str ".zip") lower) then
      .error (str "Expected .whl, .tar.gz, or .zip extension, got: " ++ filename)
    else
      let wheelErr : Option (List Nat) :=
        match stripSuf (str ".whl") lower with
        | some stem =>
          let parts := splitOnSep 45 stem
          if parts.length < 5 then
            some (str "Invalid wheel filename: expected at least 5 dash-separated parts (name-version-python-abi-platform), got "
              ++ natToDec parts.length ++ str " in " ++ [39] ++ filename ++ [39])
          else none
        | none => none
      match wheelErr with
      | some e => .error e
      | none =>
        match (stripSuf (str ".tar.gz") lower).orElse (fun _ => stripSuf (str ".zip") lower) with
        | some stem =>
          if ¬ stem.contains 45 then
            .error (str "Invalid source distribution filename: expected "
              ++ [39] ++ str "name-version" ++ [39] ++ str " format, got " ++ [39] ++ stem ++ [39])
          else .ok ()
        | none => .ok ()

end Pypi

/-- Lexicographic comparison of code-point strings (Rust `String` `Ord`;
UTF-8 byte order coincides with code-point order). -/
def strLe : List Nat → List Nat → Bool
  | [], _ => true
  | _ :: _, [] => false
  | a :: as, b :: bs => if a < b then true else if b < a then false else strLe as bs

/-- The lexicographic order as a relation. -/
def StrLE (a b : List Nat) : Prop := strLe a b = true

/-- Insert into a sorted list (standard insertion step). -/
def insertStr (x : List Nat) : List (List Nat) → List (List Nat)
  | [] => [x]
  | y :: ys => if strLe x y then x :: y :: ys else y :: insertStr x ys

/-- Insertion sort by `strLe`; for this total order it returns the same list
as any correct sort, in particular Rust `Vec::sort`. -/
def sortStrs : List (List Nat) → List (List Nat)
  | [] => []
  | x :: xs => insertStr x (sortStrs xs)

/-- Rust `Vec::dedup`: drop consecutive duplicates. -/
def dedupConsec : List (List Nat) → List (List Nat)
  | [] => []
  | [x] => [x]
  | x :: y :: ys => if x = y then dedupConsec (y :: ys) else x :: dedupConsec (y :: ys)

/-- The shared 404 response of both routers. -/
def notFoundResponse : HttpResponse :=
  ⟨404, [(str "content-type", str "text/plain")], str "Not Found"⟩

namespace Pypi

/-- The `packages` list both index builders start from: normalized names of
all artifacts, sorted and deduplicated (Rust `sort` + `dedup`; `insertionSort`
produces the same list as any correct sort for this total order). -/
def index_packages (artifacts : List Metadata) : List (List Nat) :=
  dedupConsec (sortStrs
    (artifacts.filterMap fun a =>
      (extract_package_name (lastSegment a.path)).map normalize_package_name))

/-- One JSON entry of `pypi-index.json` (optional fields model keys that are
inserted only when present). -/
structure PypiEntry where
  path : List Nat
  name : List Nat
  version : Option (List Nat)
  content_type : List Nat
  size_bytes : Nat
deriving DecidableEq

/-- The `pypi-index.json` document, modelled structurally (the byte form is
produced by the JSON serializer, which preserves object and array order). -/
structure PypiIndexJson where
  format : List Nat
  total_count : Nat
  total_size_bytes : Nat
  packages : List PypiEntry
deriving DecidableEq

/-- The JSON entry built for one artifact in `generate_index`. -/
def entryOf (a : Metadata) : PypiEntry :=
  ⟨a.path,
   ((extract_package_name (lastSegment a.path)).map normalize_package_name).getD [],
   a.version, a.content_type, a.size_bytes⟩

/-- The root-index HTML produced by `generate_index`. -/
def rootIndexHtml (packages : List (List Nat)) : List Nat :=
  str "<!DOCTYPE html>\n<html>\n<head><title>Simple Index</title></head>\n<body>\n" ++
  (packages.map fun pkg =>
    str "  <a href=\"/simple/" ++ pkg ++ str "/\">" ++ pkg ++ str "</a>\n").flatten ++
  str "</body>\n</html>\n"

/-- The two documents returned by `generate_index` on a non-empty input. -/
structure PypiIndexOutput where
  htmlName : List Nat
  html : List Nat
  jsonName : List Nat
  json : PypiIndexJson
deriving DecidableEq

/-- `generate_index` from the PyPI plugin. -/
def generate_index (artifacts : List Metadata) : Except (List Nat) (Option PypiIndexOutput) :=
  if artifacts = [] then .ok none
  else
    .ok (some ⟨str "simple/index.html", rootIndexHtml (index_packages artifacts),
      str "pypi-index.json",
      ⟨str "pypi-custom", artifacts.length, (artifacts.map (·.size_bytes)).sum,
       artifacts.map entryOf⟩⟩)

/-- `handle_simple_root` from the PyPI plugin. -/
def handle_simple_root (context : RepoContext) (artifacts : List Metadata) :
    Except (List Nat) HttpResponse :=
  let packages := index_packages artifacts
  let html :=
    str "<!DOCTYPE html>\n<html>\n<head><title>Simple Index</title></head>\n<body>\n" ++
    (packages.map fun pkg =>
      str "  <a href=\"" ++ context.base_url ++ str "/simple/" ++ pkg ++ str "/\">" ++
      pkg ++ str "</a>\n").flatten ++
    str "</body>\n</html>\n"
  .ok ⟨200, [(str "content-type", str "text/html")], html⟩

/-- `handle_simple_project` from the PyPI plugin. -/
def handle_simple_project (project : List Nat) (context : RepoContext)
    (artifacts : List Metadata) : Except (List Nat) HttpResponse :=
  let normalized := normalize_package_name project
  let matching := artifacts.filter fun a =>
    match extract_package_name (lastSegment a.path) with
    | some n => normalize_package_name n == normalized
    | none => false
  if matching = [] then
    .ok ⟨404, [(str "content-type", str "text/plain")],
      str "Project " ++ [39] ++ project ++ [39] ++ str " not found"⟩
  else
    let html :=
      str "<!DOCTYPE html>\n<html>\n<head><title>Links for " ++ normalized ++
      str "</title></head>\n<body>\n<h1>Links for " ++ normalized ++ str "</h1>\n" ++
      (matching.map fun a =>
        let filename := lastSegment a.path
        let frag :=
          match a.checksum_sha256 with
          | some sha => if sha ≠ [] then str "#sha256=" ++ sha else []
          | none => []
        str "  <a href=\"" ++ context.base_url ++ str "/packages/" ++ filename ++ frag ++
        str "\">" ++ filename ++ str "</a>\n").flatten ++
      str "</body>\n</html>\n"
    .ok ⟨200, [(str "content-type", str "text/html")], html⟩

/-- `handle_package_download` from the PyPI plugin. -/
def handle_package_download (filename : List Nat) (context : RepoContext)
    (artifacts : List Metadata) : Except (List Nat) HttpResponse :=
  match artifacts.find? (fun a => lastSegment a.path == filename) with
  | some a => .ok ⟨302, [(str "location", context.download_base_url ++ 47 :: a.path)], []⟩
  | none => .ok ⟨404, [(str "content-type", str "text/plain")],
      str "Package " ++ [39] ++ filename ++ [39] ++ str " not found"⟩

/-- The `/packages/{filename}` route attempt of `handle_request` (falls through
to 404 exactly as the source's `if let` chain does). -/
def route_packages (trimmed : List Nat) (context : RepoContext)
    (artifacts : List Metadata) : Except (List Nat) HttpResponse :=
  match stripPre (str "/packages/") trimmed with
  | some filename =>
    if filename.contains 47 = false ∧ filename ≠ [] then
      handle_package_download filename context artifacts
    else .ok notFoundResponse
  | none => .ok notFoundResponse

/-- The `/simple/{project}/` route attempt of `handle_request`. -/
def route_simple (trimmed : List Nat) (context : RepoContext)
    (artifacts : List Metadata) : Except (List Nat) HttpResponse :=
  match stripPre (str "/simple/") trimmed with
  | some project =>
    if project.contains 47 = false ∧ project ≠ [] then
      handle_simple_project project context artifacts
    else route_packages trimmed context artifacts
  | none => route_packages trimmed context artifacts

/-- `handle_request` from the PyPI plugin. -/
def handle_request (request : HttpRequest) (context : RepoContext)
    (artifacts : List Metadata) : Except (List Nat) HttpResponse :=
  if request.method ≠ str "GET" ∧ request.method ≠ str "HEAD" then
    .ok ⟨405, [(str "allow", str "GET, HEAD")], str "Method Not Allowed"⟩
  else if request.path = str "/simple/" ∨ request.path = str "/simple" ∨
          request.path = str "/" then
    handle_simple_root context artifacts
  else
    route_simple (trimTrailing 47 request.path) context artifacts

end Pypi


/-- Little-endian bytes of a `u16` value (`u16::to_le_bytes`). -/
def toLE2 (n : Nat) : List Nat := [n % 256, n / 256 % 256]

/-- Little-endian bytes of a `u32` value (`u32::to_le_bytes`). -/
def toLE4 (n : Nat) : List Nat := [n % 256, n / 256 % 256, n / 65536 % 256, n / 16777216 % 256]

namespace Rpm

/-- RPM lead magic bytes `0xed 0xab 0xee 0xdb`. -/
def RPM_MAGIC : List Nat := [0xed, 0xab, 0xee, 0xdb]

/-- One shift-and-conditional-xor round of the CRC32 inner loop (all values
stay below `2 ^ 32`, so plain `Nat` arithmetic models the `u32` ops). -/
def crc32Round (crc : Nat) : Nat :=
  if crc % 2 = 1 then (crc / 2) ^^^ 0xEDB88320 else crc / 2

/-- Fold one byte into the CRC32 state: xor it in, then 8 rounds. -/
def crc32Byte (crc b : Nat) : Nat := crc32Round^[8] (crc ^^^ b)

/-- `crc32` from the RPM plugin (ISO 3309 / ITU-T V.42, bit-reversed,
initial value all-ones, final value inverted). -/
def crc32 (data : List Nat) : Nat :=
  (data.foldl crc32Byte 0xFFFFFFFF) ^^^ 0xFFFFFFFF

/-- Rust `slice::chunks(65535)` with explicit fuel (`fuel ≥ length` suffices). -/
def chunksAux : Nat → List Nat → List (List Nat)
  | 0, _ => []
  | fuel + 1, l => if l = [] then [] else l.take 65535 :: chunksAux fuel (l.drop 65535)

/-- The chunk list `gzip_compress` iterates over: one empty chunk for empty
input, otherwise `data.chunks(65535)`. -/
def gzipChunks (data : List Nat) : List (List Nat) :=
  if data = [] then [[]] else chunksAux data.length data

/-- One DEFLATE stored block: `BFINAL` byte, `LEN` and `NLEN = !LEN` as `u16`
little-endian, then the raw chunk bytes. -/
def storedBlock (isLast : Bool) (chunk : List Nat) : List Nat :=
  let len := chunk.length % 65536
  (if isLast then 1 else 0) :: (toLE2 len ++ toLE2 (65535 ^^^ len) ++ chunk)

/-- The stored blocks of `gzip_compress`, final flag on the last chunk. -/
def encodeBlocks : List (List Nat) → List Nat
  | [] => []
  | [c] => storedBlock true c
  | c :: c' :: cs => storedBlock false c ++ encodeBlocks (c' :: cs)

/-- The fixed 10-byte gzip header emitted by `gzip_compress`. -/
def GZIP_HEADER : List Nat := [0x1f, 0x8b, 0x08, 0x00, 0x00, 0x00, 0x00, 0x00, 0x00, 0xff]

/-- `gzip_compress` from the RPM plugin: header, stored blocks, CRC32 and
input length (`as u32`) little-endian. -/
def gzip_compress (data : List Nat) : Except (List Nat) (List Nat) :=
  .ok (GZIP_HEADER ++ encodeBlocks (gzipChunks data)
    ++ toLE4 (crc32 data) ++ toLE4 (data.length % 4294967296))

/-- `xml_escape`, one `str::replace` pass. -/
def replaceAll (c : Nat) (rep : List Nat) : List Nat → List Nat
  | [] => []
  | x :: xs => if x = c then rep ++ replaceAll c rep xs else x :: replaceAll c rep xs

/-- `xml_escape` from the RPM plugin (the source's chain of `replace` calls). -/
def xml_escape (s : List Nat) : List Nat :=
  replaceAll 39 (str "&apos;")
    (replaceAll 34 (str "&quot;")
      (replaceAll 62 (str "&gt;")
        (replaceAll 60 (str "&lt;")
          (replaceAll 38 (str "&amp;") s))))

/-- The `RpmFileInfo` record of the RPM plugin. -/
structure RpmFileInfo where
  name : Option (List Nat)
  version : Option (List Nat)
  release : Option (List Nat)
  arch : Option (List Nat)
deriving DecidableEq

/-- `parse_rpm_filename` from the RPM plugin: strip `.rpm`, split on last `.`
for the architecture, then twice on last `-` for release and version. -/
def parse_rpm_filename (filename : List Nat) : RpmFileInfo :=
  match stripSuf (str ".rpm") filename with
  | none => ⟨none, none, none, none⟩
  | some stem =>
    let pa :=
      match rsplitOnce 46 stem with
      | some (b, a) => (b, some a)
      | none => (stem, none)
    let pr :=
      match rsplitOnce 45 pa.1 with
      | some (b, r) => (b, some r)
      | none => (pa.1, none)
    let nv :=
      match rsplitOnce 45 pr.1 with
      | some (n, v) => (some n, some v)
      | none => (some pr.1, none)
    ⟨nv.1, nv.2, pr.2, pa.2⟩

/-- `extract_version_from_rpm_filename` from the RPM plugin. -/
def extract_version_from_rpm_filename (path : List Nat) : Option (List Nat) :=
  let info := parse_rpm_filename (lastSegment path)
  match info.version, info.release with
  | some v, some r => some (v ++ 45 :: r)
  | some v, none => some v
  | _, _ => none

/-- `parse_metadata` from the RPM plugin. -/
def parse_metadata (path : List Nat) (data : List Nat) : Except (List Nat) Metadata :=
  if data = [] then .error (str "Empty file")
  else
    let has_rpm_magic := 4 ≤ data.length ∧ data.take 4 = RPM_MAGIC
    let content_type :=
      if has_rpm_magic then str "application/x-rpm" else str "application/octet-stream"
    .ok ⟨path, extract_version_from_rpm_filename path, content_type, data.length, none⟩

/-- `validate` from the RPM plugin. -/
def validate (path : List Nat) (data : List Nat) : Except (List Nat) Unit :=
  if data = [] then .error (str "RPM package cannot be empty")
  else if path = [] then .error (str "Artifact path cannot be empty")
  else if ¬ endsWithL (str ".rpm") (lowerL path) then
    .error (str "Expected .rpm extension, got: " ++ lastSegment path)
  else if data.length < 96 then
    .error (str "File too small for RPM lead: " ++ natToDec data.length ++
      str " bytes (minimum " ++ natToDec 96 ++ str ")")
  else if data.take 4 ≠ RPM_MAGIC then
    .error (str "Invalid RPM magic: expected [ed, ab, ee, db], got [" ++
      hexByte (data.getD 0 0) ++ str ", " ++ hexByte (data.getD 1 0) ++ str ", " ++
      hexByte (data.getD 2 0) ++ str ", " ++ hexByte (data.getD 3 0) ++ str "]")
  else .ok ()

/-- One JSON entry of `rpm-index.json` (optional fields model keys that are
inserted only when present). -/
structure RpmEntry where
  path : List Nat
  version : Option (List Nat)
  name : Option (List Nat)
  arch : Option (List Nat)
  release : Option (List Nat)
  size_bytes : Nat
deriving DecidableEq

/-- The `rpm-index.json` document, modelled structurally. -/
structure RpmIndexJson where
  format : List Nat
  total_count : Nat
  total_size_bytes : Nat
  packages : List RpmEntry
deriving DecidableEq

/-- The JSON entry built for one artifact in `generate_index`. -/
def entryOf (a : Metadata) : RpmEntry :=
  let info := parse_rpm_filename (lastSegment a.path)
  ⟨a.path, a.version, info.name, info.arch, info.release, a.size_bytes⟩

/-- `generate_index` from the RPM plugin. -/
def generate_index (artifacts : List Metadata) :
    Except (List Nat) (Option (List Nat × RpmIndexJson)) :=
  if artifacts = [] then .ok none
  else
    .ok (some (str "rpm-index.json",
      ⟨str "rpm-custom", artifacts.length, (artifacts.map (·.size_bytes)).sum,
       artifacts.map entryOf⟩))

/-- The fixed `repomd.xml` body. -/
def repomdXml : List Nat :=
  str "<?xml version=\"1.0\" encoding=\"UTF-8\"?>\n<repomd xmlns=\"http://linux.duke.edu/metadata/repo\" xmlns:rpm=\"http://linux.duke.edu/metadata/rpm\">\n  <revision>1</revision>\n  <data type=\"primary\">\n    <location href=\"repodata/primary.xml.gz\"/>\n  </data>\n  <data type=\"filelists\">\n    <location href=\"repodata/filelists.xml.gz\"/>\n  </data>\n  <data type=\"other\">\n    <location href=\"repodata/other.xml.gz\"/>\n  </data>\n</repomd>\n"

/-- `handle_repomd_xml` from the RPM plugin. -/
def handle_repomd_xml (_context : RepoContext) (_artifacts : List Metadata) :
    Except (List Nat) HttpResponse :=
  .ok ⟨200, [(str "content-type", str "application/xml")], repomdXml⟩

/-- One `<package>` element of `primary.xml`. -/
def primaryXmlEntry (artifact : Metadata) : List Nat :=
  let filename := lastSegment artifact.path
  let info := parse_rpm_filename filename
  let name := info.name.getD (str "unknown")
  let version := info.version.getD (str "0")
  let release := info.release.getD (str "0")
  let arch := info.arch.getD (str "x86_64")
  str "  <package type=\"rpm\">\n" ++
  str "    <name>" ++ xml_escape name ++ str "</name>\n" ++
  str "    <arch>" ++ xml_escape arch ++ str "</arch>\n" ++
  str "    <version epoch=\"0\" ver=\"" ++ xml_escape version ++ str "\" rel=\"" ++
    xml_escape release ++ str "\"/>\n" ++
  str "    <checksum type=\"sha256\" pkgid=\"YES\">" ++
    artifact.checksum_sha256.getD [] ++ str "</checksum>\n" ++
  str "    <summary/>\n" ++ str "    <description/>\n" ++ str "    <packager/>\n" ++
  str "    <url/>\n" ++
  str "    <size package=\"" ++ natToDec artifact.size_bytes ++
    str "\" installed=\"0\" archive=\"0\"/>\n" ++
  str "    <location href=\"packages/" ++ xml_escape filename ++ str "\"/>\n" ++
  str "    <format>\n" ++
  str "      <rpm:provides>\n        <rpm:entry name=\"" ++ xml_escape name ++
    str "\" flags=\"EQ\" epoch=\"0\" ver=\"" ++ xml_escape version ++
    str "\" rel=\"" ++ xml_escape release ++ str "\"/>\n      </rpm:provides>\n" ++
  str "    </format>\n" ++
  str "  </package>\n"

/-- The `primary.xml` body built by `handle_primary_xml_gz`. -/
def primaryXml (artifacts : List Metadata) : List Nat :=
  str "<?xml version=\"1.0\" encoding=\"UTF-8\"?>\n<metadata xmlns=\"http://linux.duke.edu/metadata/common\" xmlns:rpm=\"http://linux.duke.edu/metadata/rpm\" packages=\"" ++
  natToDec artifacts.length ++ str "\">\n" ++
  (artifacts.map primaryXmlEntry).flatten ++
  str "</metadata>\n"

/-- `handle_primary_xml_gz` from the RPM plugin. -/
def handle_primary_xml_gz (_context : RepoContext) (artifacts : List Metadata) :
    Except (List Nat) HttpResponse :=
  (gzip_compress (primaryXml artifacts)).map fun compressed =>
    ⟨200, [(str "content-type", str "application/gzip")], compressed⟩

/-- `handle_filelists_xml_gz` from the RPM plugin. -/
def handle_filelists_xml_gz : Except (List Nat) HttpResponse :=
  (gzip_compress (str "<?xml version=\"1.0\" encoding=\"UTF-8\"?>\n<filelists xmlns=\"http://linux.duke.edu/metadata/filelists\" packages=\"0\">\n</filelists>\n")).map
    fun compressed => ⟨200, [(str "content-type", str "application/gzip")], compressed⟩

/-- `handle_other_xml_gz` from the RPM plugin. -/
def handle_other_xml_gz : Except (List Nat) HttpResponse :=
  (gzip_compress (str "<?xml version=\"1.0\" encoding=\"UTF-8\"?>\n<otherdata xmlns=\"http://linux.duke.edu/metadata/other\" packages=\"0\">\n</otherdata>\n")).map
    fun compressed => ⟨200, [(str "content-type", str "application/gzip")], compressed⟩

/-- `handle_package_download` from the RPM plugin. -/
def handle_package_download (filename : List Nat) (context : RepoContext)
    (artifacts : List Metadata) : Except (List Nat) HttpResponse :=
  match artifacts.find? (fun a => lastSegment a.path == filename) with
  | some a => .ok ⟨302, [(str "location", context.download_base_url ++ 47 :: a.path)], []⟩
  | none => .ok ⟨404, [(str "content-type", str "text/plain")],
      str "Package " ++ [39] ++ filename ++ [39] ++ str " not found"⟩

/-- The `/packages/{filename}` / `/Packages/{filename}` route attempt of
`handle_request`. -/
def route_packages (trimmed : List Nat) (context : RepoContext)
    (artifacts : List Metadata) : Except (List Nat) HttpResponse :=
  match (stripPre (str "/packages/") trimmed).orElse
      (fun _ => stripPre (str "/Packages/") trimmed) with
  | some filename =>
    if filename.contains 47 = false ∧ filename ≠ [] then
      handle_package_download filename context artifacts
    else .ok notFoundResponse
  | none => .ok notFoundResponse

/-- `handle_request` from the RPM plugin. -/
def handle_request (request : HttpRequest) (context : RepoContext)
    (artifacts : List Metadata) : Except (List Nat) HttpResponse :=
  if request.method ≠ str "GET" ∧ request.method ≠ str "HEAD" then
    .ok ⟨405, [(str "allow", str "GET, HEAD")], str "Method Not Allowed"⟩
  else
    let trimmed := trimTrailing 47 request.path
    if trimmed = str "/repodata/repomd.xml" then handle_repomd_xml context artifacts
    else if trimmed = str "/repodata/primary.xml.gz" then
      handle_primary_xml_gz context artifacts
    else if trimmed = str "/repodata/filelists.xml.gz" then handle_filelists_xml_gz
    else if trimmed = str "/repodata/other.xml.gz" then handle_other_xml_gz
    else route_packages trimmed context artifacts

end Rpm

namespace Unity

/-- `is_semver_like` from the Unity plugin. -/
def is_semver_like (s : List Nat) : Bool :=
  let t := if s.head? = some 118 then s.tail else s
  match t.head? with
  | none => false
  | some c =>
    isDigitN c && t.contains 46 &&
      t.all fun c => isDigitN c || c = 46 || c = 45 || isAsciiAlphaN c

/-- The `for part in path.split('/').rev()` loop of `extract_version_from_path`. -/
def findSegment : List (List Nat) → Option (List Nat)
  | [] => none
  | p :: ps => if is_semver_like p then some p else findSegment ps

/-- The `for (i, _) in stem.match_indices('-')` loop of
`extract_version_from_path`: at each `-`, test the remainder. -/
def scanStem : List Nat → Option (List Nat)
  | [] => none
  | c :: rest =>
    if c = 45 ∧ (match rest.head? with | some d => isDigitN d | none => false) = true ∧
        is_semver_like rest = true then
      some rest
    else scanStem rest

/-- `extract_version_from_path` from the Unity plugin. -/
def extract_version_from_path (path : List Nat) : Option (List Nat) :=
  match findSegment (splitOnSep 47 path).reverse with
  | some v => some v
  | none =>
    let filename := lastSegment path
    match (stripSuf (str ".unitypackage") filename).orElse
        (fun _ => (rsplitOnce 46 filename).map (·.1)) with
    | none => none
    | some stem => scanStem stem

/-- `parse_metadata` from the Unity plugin. -/
def parse_metadata (path : List Nat) (data : List Nat) : Except (List Nat) Metadata :=
  if data = [] then .error (str "Empty file")
  else
    let is_gzip := 2 ≤ data.length ∧ data.getD 0 0 = 0x1f ∧ data.getD 1 0 = 0x8b
    let content_type :=
      if is_gzip then str "application/gzip" else str "application/octet-stream"
    .ok ⟨path, extract_version_from_path path, content_type, data.length, none⟩

/-- `validate` from the Unity plugin. -/
def validate (path : List Nat) (data : List Nat) : Except (List Nat) Unit :=
  if data = [] then .error (str "Unity package cannot be empty")
  else if path = [] then .error (str "Artifact path cannot be empty")
  else if ¬ endsWithL (str ".unitypackage") (lowerL path) then
    .error (str "Expected .unitypackage extension, got: " ++ lastSegment path)
  else if data.length < 2 then
    .error (str "File too small to be a valid gzip archive")
  else if ¬(data.getD 0 0 = 0x1f ∧ data.getD 1 0 = 0x8b) then
    .error (str "Invalid gzip header: expected [1f, 8b], got [" ++
      hexByte (data.getD 0 0) ++ str ", " ++ hexByte (data.getD 1 0) ++ str "]")
  else if 3 ≤ data.length ∧ data.getD 2 0 ≠ 0x08 then
    .error (str "Unsupported gzip compression method: " ++ hexByte (data.getD 2 0) ++
      str " (expected 08/deflate)")
  else .ok ()

/-- One JSON entry of `unity-index.json`. -/
structure UnityEntry where
  path : List Nat
  version : Option (List Nat)
  size_bytes : Nat
  content_type : List Nat
deriving DecidableEq

/-- The `unity-index.json` document, modelled structurally. -/
structure UnityIndexJson where
  format : List Nat
  total_count : Nat
  total_size_bytes : Nat
  packages : List UnityEntry
deriving DecidableEq

/-- The JSON entry built for one artifact in `generate_index`. -/
def entryOf (a : Metadata) : UnityEntry :=
  ⟨a.path, a.version, a.size_bytes, a.content_type⟩

/-- `generate_index` from the Unity plugin. -/
def generate_index (artifacts : List Metadata) :
    Except (List Nat) (Option (List Nat × UnityIndexJson)) :=
  if artifacts = [] then .ok none
  else
    .ok (some (str "unity-index.json",
      ⟨str "unity", artifacts.length, (artifacts.map (·.size_bytes)).sum,
       artifacts.map entryOf⟩))

end Unity

/-- One step of a standard DEFLATE stored-block reader: `BFINAL`/`BTYPE` byte
(must be `0x00` or `0x01` here), `LEN`, `NLEN` (checked to be the one's
complement of `LEN`), then `LEN` raw bytes; fuel bounds the block count. -/
def readBlocks : Nat → List Nat → List Nat → Option (List Nat × List Nat)
  | 0, _, _ => none
  | fuel + 1, input, acc =>
    match input with
    | b :: l0 :: l1 :: n0 :: n1 :: rest =>
      let len := l0 + 256 * l1
      let nlen := n0 + 256 * n1
      if nlen = 65535 ^^^ len ∧ len ≤ rest.length then
        if b = 1 then some (acc ++ rest.take len, rest.drop len)
        else if b = 0 then readBlocks fuel (rest.drop len) (acc ++ rest.take len)
        else none
      else none
    | _ => none

/-- A standard gzip/DEFLATE decoder for streams of stored blocks, written from
RFC 1952/1951 as the spec describes them: check the 10-byte header (magic
`1f 8b`, method 8, no flags), read the stored blocks, then require an exact
8-byte trailer whose CRC32 and ISIZE fields match the decoded payload. -/
def gzipDecode (s : List Nat) : Option (List Nat) :=
  match s with
  | 31 :: 139 :: 8 :: 0 :: _ :: _ :: _ :: _ :: _ :: _ :: rest =>
    match readBlocks rest.length rest [] with
    | some (payload, [c0, c1, c2, c3, s0, s1, s2, s3]) =>
      if c0 + 256 * c1 + 65536 * c2 + 16777216 * c3 = Rpm.crc32 payload ∧
          s0 + 256 * s1 + 65536 * s2 + 16777216 * s3 = payload.length % 4294967296 then
        some payload
      else none
    | _ => none
  | _ => none

/-- The wheel-structure condition `validate` imposes on a (lowercased)
filename: when it is a `.whl`, its stem has at least 5 dash-separated parts. -/
def Pypi.wheelPartsOk (lower : List Nat) : Bool :=
  match stripSuf (str ".whl") lower with
  | some stem => decide (5 ≤ (splitOnSep 45 stem).length)
  | none => true

/-- The sdist-structure condition `validate` imposes on a (lowercased)
filename: when it is a `.tar.gz` or `.zip`, its stem contains a `-`. -/
def Pypi.sdistDashOk (lower : List Nat) : Bool :=
  match (stripSuf (str ".tar.gz") lower).orElse (fun _ => stripSuf (str ".zip") lower) with
  | some stem => stem.contains 45
  | none => true

/-- Splitting at the last separator fails exactly when the separator is absent. -/
theorem rsplitOnce_eq_none_iff (sep : Nat) (s : List Nat) :
    rsplitOnce sep s = none ↔ sep ∉ s := by
  induction s with
  | nil => simp [rsplitOnce]
  | cons c rest ih =>
    simp only [rsplitOnce]
    cases h : rsplitOnce sep rest with
    | some p =>
      have : sep ∈ rest := by
        by_contra hmem
        rw [← ih] at hmem
        rw [h] at hmem
        cases hmem
      simp [this]
    | none =>
      have hrest : sep ∉ rest := ih.mp h
      by_cases hc : c = sep <;> simp [hc, hrest]
      exact fun he => hc he.symm

/-- A decomposition at an occurrence whose right part avoids the separator
is unique. -/
theorem lastSplit_unique (sep : Nat) :
    ∀ l₁ r₁ l₂ r₂ : List Nat, l₁ ++ sep :: r₁ = l₂ ++ sep :: r₂ →
      sep ∉ r₁ → sep ∉ r₂ → l₁ = l₂ ∧ r₁ = r₂ := by
  intro l₁
  induction l₁ with
  | nil =>
    intro r₁ l₂ r₂ h h₁ h₂
    cases l₂ with
    | nil => simpa using h
    | cons y ys =>
      obtain ⟨hy, hr⟩ := List.cons.inj (by simpa using h)
      exact absurd (hr ▸ (by simp [hy] : sep ∈ ys ++ sep :: r₂)) h₁
  | cons x xs ih =>
    intro r₁ l₂ r₂ h h₁ h₂
    cases l₂ with
    | nil =>
      obtain ⟨hy, hr⟩ := List.cons.inj (by simpa using h)
      exact absurd (hr.symm ▸ (by simp [← hy] : sep ∈ xs ++ sep :: r₁)) h₂
    | cons y ys =>
      obtain ⟨hy, hr⟩ := List.cons.inj h
      obtain ⟨ha, hb⟩ := ih r₁ ys r₂ hr h₁ h₂
      exact ⟨by rw [hy, ha], hb⟩

/-- Splitting at the last separator: a `some` result is exactly the
decomposition whose right part contains no further separator. -/
theorem rsplitOnce_eq_some_iff (sep : Nat) (s l r : List Nat) :
    rsplitOnce sep s = some (l, r) ↔ s = l ++ sep :: r ∧ sep ∉ r := by
  induction s generalizing l r with
  | nil =>
    simp only [rsplitOnce]
    constructor
    · intro h; cases h
    · rintro ⟨h, -⟩; cases l <;> simp at h
  | cons c rest ih =>
    simp only [rsplitOnce]
    cases h : rsplitOnce sep rest with
    | some p =>
      obtain ⟨l', r'⟩ := p
      obtain ⟨hrest, hout⟩ := (ih l' r').mp h
      constructor
      · intro hsome
        obtain ⟨hl, hr⟩ : c :: l' = l ∧ r' = r := by simpa using hsome
        subst hl; subst hr
        exact ⟨by simp [hrest], hout⟩
      · rintro ⟨heq, hnr⟩
        cases l with
        | nil =>
          simp only [List.nil_append] at heq
          obtain ⟨hc, hrest'⟩ := List.cons.inj heq
          exact absurd (hrest' ▸ (hrest ▸ (by simp : sep ∈ l' ++ sep :: r'))) hnr
        | cons x l'' =>
          obtain ⟨hcx, hrest'⟩ := List.cons.inj heq
          subst hcx
          obtain ⟨ha, hb⟩ :=
            lastSplit_unique sep l' r' l'' r (hrest ▸ hrest') hout hnr
          simp [ha, hb]
    | none =>
      have hrest : sep ∉ rest := (rsplitOnce_eq_none_iff sep rest).mp h
      by_cases hc : c = sep
      · subst hc
        simp only [if_pos rfl]
        constructor
        · intro hsome
          obtain ⟨hl, hr⟩ : ([] : List Nat) = l ∧ rest = r := by simpa using hsome
          subst hl; subst hr
          exact ⟨rfl, hrest⟩
        · rintro ⟨heq, hnr⟩
          cases l with
          | nil =>
            obtain hr : rest = r := by simpa using heq
            simp [hr]
          | cons x l'' =>
            obtain ⟨hcx, hrest'⟩ := List.cons.inj heq
            exact absurd (hrest' ▸ (by simp : c ∈ l'' ++ c :: r)) hrest
      · simp only [if_neg hc]
        constructor
        · intro hsome; cases hsome
        · rintro ⟨heq, hnr⟩
          cases l with
          | nil =>
            obtain ⟨hcx, -⟩ := List.cons.inj (by simpa using heq)
            exact absurd hcx hc
          | cons x l'' =>
            obtain ⟨hcx, hrest'⟩ := List.cons.inj heq
            exact absurd (hrest' ▸ (by simp : sep ∈ l'' ++ sep :: r)) hrest

/-- C2: RPM filename parsing is right-to-left: after stripping `.rpm`, split on
the last `.` for the architecture, then the remainder on the last `-` for the
release, then that remainder on the last `-` for the version, the rest being
the name; a missing separator leaves the field absent without failing; the
reported version is `version-release` when both are present, just the version
when only it is, else absent; and `python3-numpy-1.24.2-4.el9.x86_64.rpm`
parses to name `python3-numpy`, version `1.24.2`, release `4.el9`,
architecture `x86_64`. -/
theorem rpm_filename_grammar :
    (∀ sep s l r, rsplitOnce sep s = some (l, r) ↔ s = l ++ sep :: r ∧ sep ∉ r) ∧
    (∀ sep s, rsplitOnce sep s = none ↔ sep ∉ s) ∧
    Rpm.parse_rpm_filename (str "python3-numpy-1.24.2-4.el9.x86_64.rpm") =
      ⟨some (str "python3-numpy"), some (str "1.24.2"), some (str "4.el9"),
       some (str "x86_64")⟩ ∧
    Rpm.parse_rpm_filename (str "abc.rpm") = ⟨some (str "abc"), none, none, none⟩ ∧
    Rpm.parse_rpm_filename (str "a-1.rpm") = ⟨some (str "a"), none, some (str "1"), none⟩ ∧
    Rpm.parse_rpm_filename (str "not-an-rpm.txt") = ⟨none, none, none, none⟩ ∧
    (∀ path, Rpm.extract_version_from_rpm_filename path =
      match (Rpm.parse_rpm_filename (lastSegment path)).version,
            (Rpm.parse_rpm_filename (lastSegment path)).release with
      | some v, some r => some (v ++ 45 :: r)
      | some v, none => some v
      | _, _ => none) :=
  ⟨rsplitOnce_eq_some_iff, rsplitOnce_eq_none_iff, by decide, by decide, by decide,
   by decide, fun _ => rfl⟩

/-- C10: in the Python handler, extension handling is case-insensitive in
`validate` but case-sensitive in metadata extraction: an uppercase `.WHL`
filename validates, yet `parse_metadata` falls back to
`application/octet-stream` and extracts no version. -/
theorem pypi_extension_case_split :
    Pypi.validate (str "NAME-1.0-PY3-NONE-ANY.WHL") [0] = .ok () ∧
    Pypi.parse_metadata (str "NAME-1.0-PY3-NONE-ANY.WHL") [0] =
      .ok ⟨str "NAME-1.0-PY3-NONE-ANY.WHL", none, str "application/octet-stream", 1, none⟩ := by
  decide

/-- `Pypi.validate` succeeds exactly when every applicable check passes. -/
theorem pypi_validate_ok_iff (p d : List Nat) :
    Pypi.validate p d = .ok () ↔
      d ≠ [] ∧ p ≠ [] ∧
      (endsWithL (str ".whl") (lowerL (lastSegment p)) ||
       endsWithL (str ".tar.gz") (lowerL (lastSegment p)) ||
       endsWithL (str ".zip") (lowerL (lastSegment p))) = true ∧
      (match stripSuf (str ".whl") (lowerL (lastSegment p)) with
       | some stem => 5 ≤ (splitOnSep 45 stem).length
       | none => True) ∧
      (match (stripSuf (str ".tar.gz") (lowerL (lastSegment p))).orElse
          (fun _ => stripSuf (str ".zip") (lowerL (lastSegment p))) with
       | some stem => stem.contains 45 = true
       | none => True) := by
  unfold Pypi.validate
  by_cases hd : d = []
  · simp [hd]
  · simp only [if_neg hd]
    by_cases hp : p = []
    · simp [hp]
    · simp only [if_neg hp]
      by_cases he : (endsWithL (str ".whl") (lowerL (lastSegment p)) ||
          endsWithL (str ".tar.gz") (lowerL (lastSegment p)) ||
          endsWithL (str ".zip") (lowerL (lastSegment p))) = true
      · simp only [he, not_true_eq_false, if_neg (not_not_intro trivial)]
        cases hw : stripSuf (str ".whl") (lowerL (lastSegment p)) with
        | some stem =>
          simp only [hw]
          by_cases h5 : (splitOnSep 45 stem).length < 5
          · simp only [if_pos h5]
            simp [hd, hp, he]
            omega
          · simp only [if_neg h5]
            cases hs : (stripSuf (str ".tar.gz") (lowerL (lastSegment p))).orElse
                (fun _ => stripSuf (str ".zip") (lowerL (lastSegment p))) with
            | some stem' =>
              simp only [hs]
              by_cases hc : stem'.contains 45 = true
              · simp [hc, hd, hp, he]
                omega
              · have hc' : ¬ 45 ∈ stem' := by
                  simpa using hc
                simp [hd, hp, he, hc']
            | none =>
              simp [hs, hd, hp, he]
              omega
        | none =>
          simp only [hw]
          cases hs : (stripSuf (str ".tar.gz") (lowerL (lastSegment p))).orElse
              (fun _ => stripSuf (str ".zip") (lowerL (lastSegment p))) with
          | some stem' =>
            simp only [hs]
            by_cases hc : stem'.contains 45 = true
            · simp [hc, hd, hp, he]
            · have hc' : ¬ 45 ∈ stem' := by
                simpa using hc
              simp [hd, hp, he, hc']
          | none =>
            simp [hs, hd, hp, he]
      · simp [he, hd, hp]

/-- `Rpm.validate` succeeds exactly when every check passes. -/
theorem rpm_validate_ok_iff (p d : List Nat) :
    Rpm.validate p d = .ok () ↔
      d ≠ [] ∧ p ≠ [] ∧ endsWithL (str ".rpm") (lowerL p) = true ∧
      96 ≤ d.length ∧ d.take 4 = Rpm.RPM_MAGIC := by
  unfold Rpm.validate
  split_ifs with h1 h2 h3 h4 h5 <;> simp_all

/-- `Unity.validate` succeeds exactly when every check passes. -/
theorem unity_validate_ok_iff (p d : List Nat) :
    Unity.validate p d = .ok () ↔
      d ≠ [] ∧ p ≠ [] ∧ endsWithL (str ".unitypackage") (lowerL p) = true ∧
      2 ≤ d.length ∧ d.getD 0 0 = 0x1f ∧ d.getD 1 0 = 0x8b ∧
      ¬(3 ≤ d.length ∧ d.getD 2 0 ≠ 0x08) := by
  unfold Unity.validate
  split_ifs with h1 h2 h3 h4 h5 h6 <;> simp_all

/-- C5: each handler's `validate` runs its checks in the fixed order
empty data → empty path → extension → size/magic → name structure, returns the
first failing check's error, and succeeds exactly when every applicable check
passes; empty data takes precedence over empty path, and a wrong extension is
reported even when the binary signature would also fail. -/
theorem validate_check_order :
    (∀ p d, Pypi.validate p d = .ok () ↔
      d ≠ [] ∧ p ≠ [] ∧
      (endsWithL (str ".whl") (lowerL (lastSegment p)) ||
       endsWithL (str ".tar.gz") (lowerL (lastSegment p)) ||
       endsWithL (str ".zip") (lowerL (lastSegment p))) = true ∧
      (match stripSuf (str ".whl") (lowerL (lastSegment p)) with
       | some stem => 5 ≤ (splitOnSep 45 stem).length
       | none => True) ∧
      (match (stripSuf (str ".tar.gz") (lowerL (lastSegment p))).orElse
          (fun _ => stripSuf (str ".zip") (lowerL (lastSegment p))) with
       | some stem => stem.contains 45 = true
       | none => True)) ∧
    (∀ p d, Rpm.validate p d = .ok () ↔
      d ≠ [] ∧ p ≠ [] ∧ endsWithL (str ".rpm") (lowerL p) = true ∧
      96 ≤ d.length ∧ d.take 4 = Rpm.RPM_MAGIC) ∧
    (∀ p d, Unity.validate p d = .ok () ↔
      d ≠ [] ∧ p ≠ [] ∧ endsWithL (str ".unitypackage") (lowerL p) = true ∧
      2 ≤ d.length ∧ d.getD 0 0 = 0x1f ∧ d.getD 1 0 = 0x8b ∧
      ¬(3 ≤ d.length ∧ d.getD 2 0 ≠ 0x08)) ∧
    (∀ p, Pypi.validate p [] = .error (str "Python package cannot be empty")) ∧
    (∀ p, Rpm.validate p [] = .error (str "RPM package cannot be empty")) ∧
    (∀ p, Unity.validate p [] = .error (str "Unity package cannot be empty")) ∧
    (∀ d, Pypi.validate [] d =
      if d = [] then .error (str "Python package cannot be empty")
      else .error (str "Artifact path cannot be empty")) ∧
    (∀ d, Rpm.validate [] d =
      if d = [] then .error (str "RPM package cannot be empty")
      else .error (str "Artifact path cannot be empty")) ∧
    (∀ d, Unity.validate [] d =
      if d = [] then .error (str "Unity package cannot be empty")
      else .error (str "Artifact path cannot be empty")) ∧
    Rpm.validate (str "test.deb") (List.replicate 96 0) =
      .error (str "Expected .rpm extension, got: test.deb") ∧
    Unity.validate (str "test.zip") [80, 75] =
      .error (str "Expected .unitypackage extension, got: test.zip") := by
  refine ⟨pypi_validate_ok_iff, rpm_validate_ok_iff, unity_validate_ok_iff,
    fun p => rfl, fun p => rfl, fun p => rfl, ?_, ?_, ?_, by decide, by decide⟩
  · intro d
    by_cases hd : d = [] <;> simp [Pypi.validate, hd]
  · intro d
    by_cases hd : d = [] <;> simp [Rpm.validate, hd]
  · intro d
    by_cases hd : d = [] <;> simp [Unity.validate, hd]

/-- C4 counterexample: the Python handler's content type is not classified
from the leading bytes: a `.whl` path with bytes matching no signature still
yields `application/zip`, and the same ZIP-magic bytes yield different content
types depending only on the path. -/
theorem pypi_content_type_not_from_bytes :
    Pypi.parse_metadata (str "a-1.whl") [0, 0, 0, 0] =
      .ok ⟨str "a-1.whl", some (str "1"), str "application/zip", 4, none⟩ ∧
    Pypi.parse_metadata (str "b.bin") [80, 75, 3, 4] =
      .ok ⟨str "b.bin", none, str "application/octet-stream", 4, none⟩ ∧
    Pypi.parse_metadata (str "a-1.whl") [80, 75, 3, 4] =
      .ok ⟨str "a-1.whl", some (str "1"), str "application/zip", 4, none⟩ := by
  decide

/-- C4 (amended): each `parse_metadata` fails exactly on empty data, and
otherwise fills every `Metadata` field: version from the filename grammar
(absent, not an error, on mismatch), size equal to the data length, no
checksum, and a content type that the RPM and Unity handlers take from the
leading-byte signature with an octet-stream fallback while the Python handler
takes it from the (case-sensitive) filename extension. -/
theorem parse_metadata_fields (p d : List Nat) :
    Pypi.parse_metadata p d =
      (if d = [] then .error (str "Empty file")
       else .ok ⟨p, Pypi.extract_version (lastSegment p),
         (if endsWithL (str ".whl") (lastSegment p) || endsWithL (str ".zip") (lastSegment p)
          then str "application/zip"
          else if endsWithL (str ".tar.gz") (lastSegment p) then str "application/gzip"
          else str "application/octet-stream"), d.length, none⟩) ∧
    Rpm.parse_metadata p d =
      (if d = [] then .error (str "Empty file")
       else .ok ⟨p, Rpm.extract_version_from_rpm_filename p,
         (if 4 ≤ d.length ∧ d.take 4 = Rpm.RPM_MAGIC then str "application/x-rpm"
          else str "application/octet-stream"), d.length, none⟩) ∧
    Unity.parse_metadata p d =
      (if d = [] then .error (str "Empty file")
       else .ok ⟨p, Unity.extract_version_from_path p,
         (if 2 ≤ d.length ∧ d.getD 0 0 = 0x1f ∧ d.getD 1 0 = 0x8b
          then str "application/gzip"
          else str "application/octet-stream"), d.length, none⟩) :=
  ⟨rfl, rfl, rfl⟩

/-- The segment loop of `extract_version_from_path` is `List.find?`. -/
theorem findSegment_eq_find? (l : List (List Nat)) :
    Unity.findSegment l = l.find? Unity.is_semver_like := by
  induction l with
  | nil => rfl
  | cons p ps ih =>
    simp only [Unity.findSegment, List.find?]
    by_cases h : Unity.is_semver_like p = true
    · simp [h]
    · simp only [Bool.not_eq_true] at h
      simp [h, ih]

/-- C7: the generic-asset version heuristic scans path segments from the right
for a version-looking segment (optional leading `v`, starts with a digit,
contains a `.`, only digits/letters/`.`/`-`); only if none qualifies does it
scan the filename stem for the first `-` whose remainder starts with a digit
and looks like a version; otherwise no version. -/
theorem unity_version_heuristics :
    (∀ s, Unity.is_semver_like s = true ↔
      (let t := if s.head? = some 118 then s.tail else s
       (match t.head? with | some c => isDigitN c = true | none => False) ∧
       46 ∈ t ∧
       ∀ c ∈ t, isDigitN c = true ∨ c = 46 ∨ c = 45 ∨ isAsciiAlphaN c = true)) ∧
    (∀ path, Unity.extract_version_from_path path =
      match (splitOnSep 47 path).reverse.find? Unity.is_semver_like with
      | some v => some v
      | none =>
        match (stripSuf (str ".unitypackage") (lastSegment path)).orElse
            (fun _ => (rsplitOnce 46 (lastSegment path)).map (·.1)) with
        | none => none
        | some stem => Unity.scanStem stem) ∧
    (∀ stem v, Unity.scanStem stem = some v →
      (match v.head? with | some c => isDigitN c = true | none => False) ∧
      Unity.is_semver_like v = true ∧ ∃ pre, stem = pre ++ 45 :: v) ∧
    Unity.extract_version_from_path
      (str "com/example/plugin/2.1.0/plugin-2.1.0.unitypackage") = some (str "2.1.0") ∧
    Unity.extract_version_from_path (str "MyPlugin-3.0.0-beta.unitypackage") =
      some (str "3.0.0-beta") ∧
    Unity.extract_version_from_path (str "Lib/9.9.9/MyPlugin-1.2.3.unitypackage") =
      some (str "9.9.9") ∧
    Unity.extract_version_from_path (str "MyPlugin.unitypackage") = none := by
  refine ⟨?_, ?_, ?_, by decide, by decide, by decide, by decide⟩
  · intro s
    simp only [Unity.is_semver_like]
    cases h : (if s.head? = some 118 then s.tail else s).head? with
    | none => simp [h]
    | some c =>
      simp only [h]
      simp [List.all_eq_true, List.elem_iff, Bool.and_eq_true, Bool.or_eq_true,
        decide_eq_true_eq, and_assoc, or_assoc]
  · intro path
    simp only [Unity.extract_version_from_path, findSegment_eq_find?]
  · intro stem v h
    induction stem with
    | nil => cases h
    | cons c rest ih =>
      simp only [Unity.scanStem] at h
      by_cases hc : c = 45 ∧
          (match rest.head? with | some d => isDigitN d | none => false) = true ∧
          Unity.is_semver_like rest = true
      · rw [if_pos hc] at h
        obtain hv : rest = v := by simpa using h
        obtain ⟨h1, h2, h3⟩ := hc
        subst hv
        refine ⟨?_, h3, [], by simp [h1]⟩
        cases hh : rest.head? with
        | none => rw [hh] at h2; simp at h2
        | some d => rw [hh] at h2; simpa using h2
      · rw [if_neg hc] at h
        obtain ⟨ha, hb, pre, hpre⟩ := ih h
        exact ⟨ha, hb, c :: pre, by simp [hpre]⟩

/-- C9: the Python handler's `validate` never looks at the artifact bytes
beyond non-emptiness: its result is the same for any two non-empty byte
buffers, and any path with an accepted extension and valid name structure
validates with arbitrary non-empty content (no magic-number or minimum-size
check exists). -/
theorem pypi_validate_no_content_checks (path d₁ d₂ : List Nat)
    (h₁ : d₁ ≠ []) (h₂ : d₂ ≠ [])
    (hp : path ≠ [])
    (he : (endsWithL (str ".whl") (lowerL (lastSegment path)) ||
           endsWithL (str ".tar.gz") (lowerL (lastSegment path)) ||
           endsWithL (str ".zip") (lowerL (lastSegment path))) = true)
    (hw : Pypi.wheelPartsOk (lowerL (lastSegment path)) = true)
    (hs : Pypi.sdistDashOk (lowerL (lastSegment path)) = true) :
    Pypi.validate path d₁ = Pypi.validate path d₂ ∧
    Pypi.validate path d₁ = .ok () := by
  have hok : Pypi.validate path d₁ = .ok () := by
    rw [pypi_validate_ok_iff]
    refine ⟨h₁, hp, he, ?_, ?_⟩
    · unfold Pypi.wheelPartsOk at hw
      cases hww : stripSuf (str ".whl") (lowerL (lastSegment path)) with
      | some stem => rw [hww] at hw; simpa using hw
      | none => simp
    · unfold Pypi.sdistDashOk at hs
      cases hss : (stripSuf (str ".tar.gz") (lowerL (lastSegment path))).orElse
          (fun _ => stripSuf (str ".zip") (lowerL (lastSegment path))) with
      | some stem => rw [hss] at hs; simpa using hs
      | none => simp
  refine ⟨?_, hok⟩
  have hok2 : Pypi.validate path d₂ = .ok () := by
    rw [pypi_validate_ok_iff] at hok ⊢
    exact ⟨h₂, hok.2.1, hok.2.2.1, hok.2.2.2.1, hok.2.2.2.2⟩
  rw [hok, hok2]

/-- Witness for C9 at a concrete wheel path and two unequal non-empty buffers. -/
theorem pypi_validate_no_content_checks_witness :
    Pypi.validate (str "requests-2.28.0-py3-none-any.whl") [0] =
      Pypi.validate (str "requests-2.28.0-py3-none-any.whl") [9, 9, 9] ∧
    Pypi.validate (str "requests-2.28.0-py3-none-any.whl") [0] = .ok () :=
  pypi_validate_no_content_checks (str "requests-2.28.0-py3-none-any.whl") [0] [9, 9, 9]
    (by decide) (by decide) (by decide) (by decide) (by decide) (by decide)

/-- Lowercasing never produces an ASCII uppercase letter. -/
theorem toLowerN_not_upper (c : Nat) : ¬(65 ≤ toLowerN c ∧ toLowerN c ≤ 90) := by
  unfold toLowerN
  split <;> omega

/-- Every character of the collapse phase output is a `-` or an alphanumeric
character of the input. -/
theorem collapse_mem : ∀ (l : List Nat) (prev : Bool) (c : Nat),
    c ∈ Pypi.collapse l prev → c = 45 ∨ (isAlphanumN c = true ∧ c ∈ l) := by
  intro l
  induction l with
  | nil => intro prev c h; cases h
  | cons x rest ih =>
    intro prev c h
    simp only [Pypi.collapse] at h
    by_cases hx : isAlphanumN x = true
    · rw [if_pos hx] at h
      rcases List.mem_cons.mp h with h1 | h2
      · exact Or.inr ⟨h1 ▸ hx, by simp [h1]⟩
      · rcases ih false c h2 with ha | ⟨hb, hc⟩
        · exact Or.inl ha
        · exact Or.inr ⟨hb, List.mem_cons_of_mem x hc⟩
    · rw [if_neg hx] at h
      cases prev with
      | true =>
        simp only [if_pos rfl] at h
        rcases ih true c h with ha | ⟨hb, hc⟩
        · exact Or.inl ha
        · exact Or.inr ⟨hb, List.mem_cons_of_mem x hc⟩
      | false =>
        simp only [Bool.false_eq_true, if_false] at h
        rcases List.mem_cons.mp h with h1 | h2
        · exact Or.inl h1
        · rcases ih true c h2 with ha | ⟨hb, hc⟩
          · exact Or.inl ha
          · exact Or.inr ⟨hb, List.mem_cons_of_mem x hc⟩

/-- No two adjacent `-` in the collapse output; with `prev` set, the output
does not start with `-`. -/
theorem collapse_chain : ∀ (l : List Nat) (prev : Bool),
    List.Chain' (fun a b => ¬(a = 45 ∧ b = 45)) (Pypi.collapse l prev) ∧
    (prev = true → (Pypi.collapse l prev).head? ≠ some 45) := by
  intro l
  induction l with
  | nil => intro prev; exact ⟨List.chain'_nil, by simp [Pypi.collapse]⟩
  | cons x rest ih =>
    intro prev
    simp only [Pypi.collapse]
    by_cases hx : isAlphanumN x = true
    · rw [if_pos hx]
      have hx45 : x ≠ 45 := fun h => by rw [h] at hx; cases hx
      constructor
      · rw [List.chain'_cons']
        exact ⟨fun y _ hcon => hx45 hcon.1, (ih false).1⟩
      · intro _ hcon
        exact hx45 (by simpa using hcon)
    · rw [if_neg hx]
      cases prev with
      | true =>
        simp only [if_pos rfl]
        exact ⟨(ih true).1, fun _ => (ih true).2 rfl⟩
      | false =>
        simp only [Bool.false_eq_true, if_false]
        constructor
        · rw [List.chain'_cons']
          refine ⟨fun y hy hcon => ?_, (ih true).1⟩
          exact (ih true).2 rfl (by rw [hy, hcon.2])
        · intro hcon; cases hcon

/-- The head surviving `dropWhile` falsifies the predicate. -/
theorem head?_dropWhile_false (p : Nat → Bool) (l : List Nat) :
    ∀ x, (l.dropWhile p).head? = some x → p x = false := by
  induction l with
  | nil => intro x h; cases h
  | cons c rest ih =>
    intro x h
    rw [List.dropWhile_cons] at h
    by_cases hc : p c = true
    · exact ih x (by rwa [if_pos hc] at h)
    · rw [if_neg hc] at h
      obtain rfl : c = x := by simpa using h
      simpa using hc

/-- `trimDash` yields an infix of its input. -/
theorem trimDash_within (l : List Nat) : Pypi.trimDash l <:+: l := by
  obtain ⟨u, hu⟩ : (l.dropWhile (· = 45)) <:+ l := List.dropWhile_suffix _
  obtain ⟨w, hw⟩ : ((l.dropWhile (· = 45)).reverse.dropWhile (· = 45)) <:+
      (l.dropWhile (· = 45)).reverse := List.dropWhile_suffix _
  refine ⟨u, w.reverse, ?_⟩
  have h1 : ((l.dropWhile (· = 45)).reverse.dropWhile (· = 45)).reverse ++ w.reverse
      = l.dropWhile (· = 45) := by
    have h2 := congrArg List.reverse hw
    simpa [List.reverse_append] using h2
  unfold Pypi.trimDash
  rw [List.append_assoc, h1]
  exact hu

/-- Membership in `trimDash` output implies membership in the input. -/
theorem trimDash_mem {c : Nat} {l : List Nat} (h : c ∈ Pypi.trimDash l) : c ∈ l := by
  unfold Pypi.trimDash at h
  rw [List.mem_reverse] at h
  have h2 := List.dropWhile_sublist (l := (l.dropWhile (· = 45)).reverse) (p := (· = 45))
  have h3 := h2.mem h
  rw [List.mem_reverse] at h3
  exact (List.dropWhile_sublist (l := l) (p := (· = 45))).mem h3

/-- `trimDash` output neither starts nor ends with `-`. -/
theorem trimDash_ends (l : List Nat) :
    (Pypi.trimDash l).head? ≠ some 45 ∧ (Pypi.trimDash l).getLast? ≠ some 45 := by
  constructor
  · unfold Pypi.trimDash
    rw [List.head?_reverse]
    cases h2 : (l.dropWhile (· = 45)).reverse.dropWhile (· = 45) with
    | nil => simp
    | cons y ys =>
      obtain ⟨w, hw⟩ : ((l.dropWhile (· = 45)).reverse.dropWhile (· = 45)) <:+
          (l.dropWhile (· = 45)).reverse := List.dropWhile_suffix _
      rw [h2] at hw
      have hval : (y :: ys).getLast? = (l.dropWhile (· = 45)).head? := by
        rw [← List.getLast?_reverse (l.dropWhile (· = 45)), ← hw,
          List.getLast?_append]
        cases hys : (y :: ys).getLast? with
        | none => simp at hys
        | some z => simp [hys]
      rw [hval]
      cases hh : (l.dropWhile (· = 45)).head? with
      | none => simp
      | some x =>
        have := head?_dropWhile_false (· = 45) l x hh
        simp only [decide_eq_false_iff_not] at this
        simpa using this
  · unfold Pypi.trimDash
    rw [List.getLast?_reverse]
    cases hh : ((l.dropWhile (· = 45)).reverse.dropWhile (· = 45)).head? with
    | none => simp
    | some x =>
      have := head?_dropWhile_false (· = 45) (l.dropWhile (· = 45)).reverse x hh
      simp only [decide_eq_false_iff_not] at this
      simpa using this

/-- `collapse` is the identity on strings of alphanumerics and isolated
dashes (no run of two, not starting with a dash when `prev` is set). -/
theorem collapse_id : ∀ (l : List Nat) (prev : Bool),
    (∀ c ∈ l, isAlphanumN c = true ∨ c = 45) →
    List.Chain' (fun a b => ¬(a = 45 ∧ b = 45)) l →
    (prev = true → l.head? ≠ some 45) →
    Pypi.collapse l prev = l := by
  intro l
  induction l with
  | nil => intro prev _ _ _; rfl
  | cons x rest ih =>
    intro prev hmem hchain hhead
    simp only [Pypi.collapse]
    by_cases hx : isAlphanumN x = true
    · rw [if_pos hx]
      rw [ih false (fun c hc => hmem c (List.mem_cons_of_mem x hc))
        (List.Chain'.tail hchain) (by simp)]
    · have hx45 : x = 45 := by
        rcases hmem x (by simp) with ha | hb
        · exact absurd ha hx
        · exact hb
      rw [if_neg hx]
      cases prev with
      | true => exact absurd (by simp [hx45]) (hhead rfl)
      | false =>
        simp only [Bool.false_eq_true, if_false]
        have hrest : Pypi.collapse rest true = rest := by
          refine ih true (fun c hc => hmem c (List.mem_cons_of_mem x hc))
            (List.Chain'.tail hchain) ?_
          intro _ hr
          cases rest with
          | nil => cases hr
          | cons y ys =>
            have hy : y = 45 := by simpa using hr
            exact (List.chain'_cons.mp hchain).1 ⟨hx45, hy⟩
        rw [hrest, hx45]

/-- Dropping leading characters that are not there is the identity. -/
theorem dropWhile_id_of_head (p : Nat → Bool) (l : List Nat)
    (h : ∀ x, l.head? = some x → p x = false) : l.dropWhile p = l := by
  cases l with
  | nil => rfl
  | cons c rest =>
    rw [List.dropWhile_cons, if_neg]
    rw [h c rfl]
    simp

/-- `trimDash` is the identity when neither end is a `-`. -/
theorem trimDash_id (l : List Nat)
    (h1 : l.head? ≠ some 45) (h2 : l.getLast? ≠ some 45) : Pypi.trimDash l = l := by
  unfold Pypi.trimDash
  have e1 : l.dropWhile (· = 45) = l := by
    apply dropWhile_id_of_head
    intro x hx
    simp only [decide_eq_false_iff_not]
    intro h45
    exact h1 (h45 ▸ hx)
  have e2 : l.reverse.dropWhile (· = 45) = l.reverse := by
    apply dropWhile_id_of_head
    intro x hx
    rw [List.head?_reverse] at hx
    simp only [decide_eq_false_iff_not]
    intro h45
    exact h2 (h45 ▸ hx)
  rw [e1, e2, List.reverse_reverse]

/-- Mapping a function that fixes every element is the identity. -/
theorem map_id_on (f : Nat → Nat) (l : List Nat) (h : ∀ x ∈ l, f x = x) :
    l.map f = l := by
  induction l with
  | nil => rfl
  | cons c rest ih =>
    simp only [List.map_cons, h c (by simp)]
    rw [ih fun x hx => h x (List.mem_cons_of_mem c hx)]

/-- C6: Python package-name normalization is idempotent, and its output
consists only of ASCII digits, lowercase letters and single internal hyphens,
with no leading or trailing hyphen. -/
theorem normalize_idempotent_and_shape (s : List Nat) :
    Pypi.normalize_package_name (Pypi.normalize_package_name s) =
      Pypi.normalize_package_name s ∧
    (∀ c ∈ Pypi.normalize_package_name s,
      (48 ≤ c ∧ c ≤ 57) ∨ (97 ≤ c ∧ c ≤ 122) ∨ c = 45) ∧
    List.Chain' (fun a b => ¬(a = 45 ∧ b = 45)) (Pypi.normalize_package_name s) ∧
    (Pypi.normalize_package_name s).head? ≠ some 45 ∧
    (Pypi.normalize_package_name s).getLast? ≠ some 45 := by
  have hmem : ∀ c ∈ Pypi.normalize_package_name s,
      (48 ≤ c ∧ c ≤ 57) ∨ (97 ≤ c ∧ c ≤ 122) ∨ c = 45 := by
    intro c hc
    have h1 : c ∈ Pypi.collapse (lowerL s) false := trimDash_mem hc
    rcases collapse_mem _ _ _ h1 with h45 | ⟨halph, hin⟩
    · right; right; exact h45
    · obtain ⟨c₀, -, hc₀⟩ := List.mem_map.mp hin
      have hupper := toLowerN_not_upper c₀
      rw [hc₀] at hupper
      simp only [isAlphanumN, isDigitN, isAsciiAlphaN, Bool.or_eq_true,
        decide_eq_true_eq] at halph
      omega
  have hchain : List.Chain' (fun a b => ¬(a = 45 ∧ b = 45))
      (Pypi.normalize_package_name s) :=
    List.Chain'.infix ((collapse_chain (lowerL s) false).1)
      (trimDash_within (Pypi.collapse (lowerL s) false))
  have hends := trimDash_ends (Pypi.collapse (lowerL s) false)
  have hid : ∀ t : List Nat,
      (∀ c ∈ t, (48 ≤ c ∧ c ≤ 57) ∨ (97 ≤ c ∧ c ≤ 122) ∨ c = 45) →
      List.Chain' (fun a b => ¬(a = 45 ∧ b = 45)) t →
      t.head? ≠ some 45 → t.getLast? ≠ some 45 →
      Pypi.normalize_package_name t = t := by
    intro t hm hc hh hl
    unfold Pypi.normalize_package_name
    have e1 : lowerL t = t := by
      apply map_id_on
      intro x hx
      have hx3 := hm x hx
      unfold toLowerN
      split <;> omega
    have e2 : Pypi.collapse t false = t := by
      refine collapse_id t false ?_ hc (by simp)
      intro c hcm
      rcases hm c hcm with h | h | h
      · left
        simp only [isAlphanumN, isDigitN, isAsciiAlphaN, Bool.or_eq_true,
          decide_eq_true_eq]
        omega
      · left
        simp only [isAlphanumN, isDigitN, isAsciiAlphaN, Bool.or_eq_true,
          decide_eq_true_eq]
        omega
      · right; exact h
    rw [e1, e2, trimDash_id t hh hl]
  exact ⟨hid _ hmem hchain hends.1 hends.2, hmem, hchain, hends.1, hends.2⟩

/-- Lexicographic comparison is total. -/
theorem strLe_total : ∀ a b : List Nat, strLe a b = true ∨ strLe b a = true := by
  intro a
  induction a with
  | nil => intro b; left; rfl
  | cons x xs ih =>
    intro b
    cases b with
    | nil => right; rfl
    | cons y ys =>
      simp only [strLe]
      by_cases h1 : x < y
      · left; rw [if_pos h1]
      · by_cases h2 : y < x
        · right; rw [if_pos h2]
        · have hxy : x = y := by omega
          subst hxy
          simp only [Nat.lt_irrefl, if_false]
          exact ih ys

/-- Lexicographic comparison is transitive. -/
theorem strLe_trans : ∀ a b c : List Nat,
    strLe a b = true → strLe b c = true → strLe a c = true := by
  intro a
  induction a with
  | nil => intro b c _ _; rfl
  | cons x xs ih =>
    intro b c hab hbc
    cases b with
    | nil => simp [strLe] at hab
    | cons y ys =>
      cases c with
      | nil => simp [strLe] at hbc
      | cons z zs =>
        simp only [strLe] at hab hbc ⊢
        by_cases h1 : x < y
        · by_cases h2 : y < z
          · rw [if_pos (by omega : x < z)]
          · by_cases h3 : z < y
            · rw [if_neg h2, if_pos h3] at hbc; cases hbc
            · rw [if_pos (by omega : x < z)]
        · by_cases h4 : y < x
          · rw [if_neg h1, if_pos h4] at hab; cases hab
          · have hxy : x = y := by omega
            subst hxy
            by_cases h2 : x < z
            · rw [if_pos h2]
            · by_cases h3 : z < x
              · rw [if_neg h2, if_pos h3] at hbc; cases hbc
              · have hxz : x = z := by omega
                subst hxz
                simp only [Nat.lt_irrefl, if_false] at hab hbc ⊢
                exact ih ys zs hab hbc

/-- Lexicographic comparison is antisymmetric. -/
theorem strLe_antisymm : ∀ a b : List Nat,
    strLe a b = true → strLe b a = true → a = b := by
  intro a
  induction a with
  | nil =>
    intro b hab hba
    cases b with
    | nil => rfl
    | cons y ys => simp [strLe] at hba
  | cons x xs ih =>
    intro b hab hba
    cases b with
    | nil => simp [strLe] at hab
    | cons y ys =>
      simp only [strLe] at hab hba
      by_cases h1 : x < y
      · rw [if_neg (by omega : ¬ y < x), if_pos h1] at hba; cases hba
      · by_cases h2 : y < x
        · rw [if_neg h1, if_pos h2] at hab; cases hab
        · have hxy : x = y := by omega
          subst hxy
          simp only [Nat.lt_irrefl, if_false] at hab hba
          rw [ih ys hab hba]

/-- Insertion produces a permutation of the cons. -/
theorem insertStr_perm (x : List Nat) : ∀ l, (insertStr x l).Perm (x :: l) := by
  intro l
  induction l with
  | nil => exact List.Perm.refl _
  | cons y ys ih =>
    simp only [insertStr]
    by_cases h : strLe x y = true
    · rw [if_pos h]
    · rw [if_neg h]
      exact (ih.cons y).trans (List.Perm.swap x y ys)

/-- Insertion sort permutes its input. -/
theorem sortStrs_perm : ∀ l, (sortStrs l).Perm l := by
  intro l
  induction l with
  | nil => exact List.Perm.refl _
  | cons x xs ih =>
    simp only [sortStrs]
    exact (insertStr_perm x (sortStrs xs)).trans (ih.cons x)

/-- Insertion preserves sortedness. -/
theorem insertStr_pairwise (x : List Nat) : ∀ l, l.Pairwise StrLE →
    (insertStr x l).Pairwise StrLE := by
  intro l
  induction l with
  | nil => intro _; exact List.pairwise_singleton _ _
  | cons y ys ih =>
    intro h
    obtain ⟨hy, hys⟩ := List.pairwise_cons.mp h
    simp only [insertStr]
    by_cases hxy : strLe x y = true
    · rw [if_pos hxy]
      refine List.pairwise_cons.mpr ⟨?_, h⟩
      intro b hb
      rcases List.mem_cons.mp hb with rfl | hb'
      · exact hxy
      · exact strLe_trans x y b hxy (hy b hb')
    · rw [if_neg hxy]
      have hyx : StrLE y x := by
        rcases strLe_total x y with h' | h'
        · exact absurd h' hxy
        · exact h'
      refine List.pairwise_cons.mpr ⟨?_, ih hys⟩
      intro b hb
      have hb' : b ∈ x :: ys := (insertStr_perm x ys).mem_iff.mp hb
      rcases List.mem_cons.mp hb' with rfl | hb''
      · exact hyx
      · exact hy b hb''

/-- Insertion sort sorts. -/
theorem sortStrs_pairwise : ∀ l, (sortStrs l).Pairwise StrLE := by
  intro l
  induction l with
  | nil => exact List.Pairwise.nil
  | cons x xs ih => exact insertStr_pairwise x (sortStrs xs) ih

/-- Two sorted lists that are permutations of each other are equal. -/
theorem sorted_perm_unique : ∀ l₁ l₂ : List (List Nat), l₁.Perm l₂ →
    l₁.Pairwise StrLE → l₂.Pairwise StrLE → l₁ = l₂ := by
  intro l₁
  induction l₁ with
  | nil =>
    intro l₂ hp _ _
    exact (hp.symm.eq_nil).symm ▸ rfl
  | cons x xs ih =>
    intro l₂ hp h₁ h₂
    cases l₂ with
    | nil => cases hp.eq_nil
    | cons y ys =>
      have hxy : x = y := by
        have hx2 : x ∈ y :: ys := hp.mem_iff.mp (by simp)
        have hy1 : y ∈ x :: xs := hp.mem_iff.mpr (by simp)
        rcases List.mem_cons.mp hx2 with h | h
        · exact h
        · rcases List.mem_cons.mp hy1 with h' | h'
          · exact h'.symm
          · exact strLe_antisymm x y ((List.pairwise_cons.mp h₁).1 y h')
              ((List.pairwise_cons.mp h₂).1 x h)
      subst hxy
      rw [ih ys hp.cons_inv (List.Pairwise.of_cons h₁) (List.Pairwise.of_cons h₂)]

/-- Consecutive-dedup yields a sublist. -/
theorem dedupConsec_sublist : ∀ l : List (List Nat), (dedupConsec l).Sublist l := by
  intro l
  induction l with
  | nil => simp [dedupConsec]
  | cons x rest ih =>
    cases rest with
    | nil => simp [dedupConsec]
    | cons y ys =>
      simp only [dedupConsec]
      by_cases h : x = y
      · rw [if_pos h]; exact ih.cons x
      · rw [if_neg h]; exact ih.cons₂ x

/-- C3 (amended): `generate_index` is a pure function of its input list (so
repeated calls agree); the Python handler's HTML simple index lists the
normalized, deduplicated names in lexicographic order and is unchanged under
permutation of the artifacts, but the JSON catalog documents of all three
handlers list packages in input-list order, so they do depend on the input
ordering. -/
theorem generate_index_ordering (l₁ l₂ : List Metadata) (hperm : l₁.Perm l₂) :
    (∀ arts : List Metadata, (Pypi.index_packages arts).Pairwise StrLE) ∧
    Pypi.index_packages l₁ = Pypi.index_packages l₂ ∧
    (Pypi.generate_index l₁).map (Option.map Pypi.PypiIndexOutput.html) =
      (Pypi.generate_index l₂).map (Option.map Pypi.PypiIndexOutput.html) ∧
    (∀ arts : List Metadata, Rpm.generate_index arts =
      if arts = [] then .ok none
      else .ok (some (str "rpm-index.json",
        ⟨str "rpm-custom", arts.length, (arts.map (·.size_bytes)).sum,
         arts.map Rpm.entryOf⟩))) ∧
    (∀ arts : List Metadata, Pypi.generate_index arts =
      if arts = [] then .ok none
      else .ok (some ⟨str "simple/index.html",
        Pypi.rootIndexHtml (Pypi.index_packages arts), str "pypi-index.json",
        ⟨str "pypi-custom", arts.length, (arts.map (·.size_bytes)).sum,
         arts.map Pypi.entryOf⟩⟩)) ∧
    (∀ arts : List Metadata, Unity.generate_index arts =
      if arts = [] then .ok none
      else .ok (some (str "unity-index.json",
        ⟨str "unity", arts.length, (arts.map (·.size_bytes)).sum,
         arts.map Unity.entryOf⟩))) := by
  have hsorted : ∀ arts : List Metadata, (Pypi.index_packages arts).Pairwise StrLE :=
    fun arts => List.Pairwise.sublist (dedupConsec_sublist _) (sortStrs_pairwise _)
  have hpkgs : Pypi.index_packages l₁ = Pypi.index_packages l₂ := by
    unfold Pypi.index_packages
    have hnames := hperm.filterMap fun a =>
      (Pypi.extract_package_name (lastSegment a.path)).map Pypi.normalize_package_name
    have hsort := sorted_perm_unique _ _
      ((sortStrs_perm _).trans (hnames.trans (sortStrs_perm _).symm))
      (sortStrs_pairwise _) (sortStrs_pairwise _)
    rw [hsort]
  refine ⟨hsorted, hpkgs, ?_, fun _ => rfl, fun _ => rfl, fun _ => rfl⟩
  by_cases h1 : l₁ = []
  · have h2 : l₂ = [] := (h1 ▸ hperm : ([] : List Metadata).Perm l₂).symm.eq_nil
    rw [h1, h2]
  · have h2 : l₂ ≠ [] := fun h => h1 ((h ▸ hperm : l₁.Perm []).eq_nil)
    unfold Pypi.generate_index
    rw [if_neg h1, if_neg h2]
    simp [hpkgs, Except.map]

/-- C3 counterexample: swapping two artifacts changes the returned documents
of the RPM, Python and Unity handlers (the JSON package lists follow input
order), refuting permutation invariance and lexicographic ordering of the
returned documents. -/
theorem generate_index_json_order_dependent :
    Rpm.generate_index
        [⟨str "a-1-1.x.rpm", some (str "1-1"), str "application/x-rpm", 1, none⟩,
         ⟨str "b-2-2.y.rpm", some (str "2-2"), str "application/x-rpm", 2, none⟩] ≠
      Rpm.generate_index
        [⟨str "b-2-2.y.rpm", some (str "2-2"), str "application/x-rpm", 2, none⟩,
         ⟨str "a-1-1.x.rpm", some (str "1-1"), str "application/x-rpm", 1, none⟩] ∧
    Pypi.generate_index
        [⟨str "a-1-p-a-t.whl", some (str "1"), str "application/zip", 1, none⟩,
         ⟨str "b-2-p-a-t.whl", some (str "2"), str "application/zip", 2, none⟩] ≠
      Pypi.generate_index
        [⟨str "b-2-p-a-t.whl", some (str "2"), str "application/zip", 2, none⟩,
         ⟨str "a-1-p-a-t.whl", some (str "1"), str "application/zip", 1, none⟩] ∧
    Unity.generate_index
        [⟨str "A-1.0.unitypackage", some (str "1.0"), str "application/gzip", 1, none⟩,
         ⟨str "B-2.0.unitypackage", some (str "2.0"), str "application/gzip", 2, none⟩] ≠
      Unity.generate_index
        [⟨str "B-2.0.unitypackage", some (str "2.0"), str "application/gzip", 2, none⟩,
         ⟨str "A-1.0.unitypackage", some (str "1.0"), str "application/gzip", 1, none⟩] := by
  decide

/-- Witness for C3 at a concrete pair of permuted artifact lists. -/
theorem generate_index_ordering_witness :
    (∀ arts : List Metadata, (Pypi.index_packages arts).Pairwise StrLE) ∧
    Pypi.index_packages
        [⟨str "x-1-p-a-t.whl", some (str "1"), str "application/zip", 1, none⟩,
         ⟨str "y-2-p-a-t.whl", some (str "2"), str "application/zip", 2, none⟩] =
      Pypi.index_packages
        [⟨str "y-2-p-a-t.whl", some (str "2"), str "application/zip", 2, none⟩,
         ⟨str "x-1-p-a-t.whl", some (str "1"), str "application/zip", 1, none⟩] ∧
    (Pypi.generate_index
        [⟨str "x-1-p-a-t.whl", some (str "1"), str "application/zip", 1, none⟩,
         ⟨str "y-2-p-a-t.whl", some (str "2"), str "application/zip", 2, none⟩]).map
        (Option.map Pypi.PypiIndexOutput.html) =
      (Pypi.generate_index
        [⟨str "y-2-p-a-t.whl", some (str "2"), str "application/zip", 2, none⟩,
         ⟨str "x-1-p-a-t.whl", some (str "1"), str "application/zip", 1, none⟩]).map
        (Option.map Pypi.PypiIndexOutput.html) ∧
    (∀ arts : List Metadata, Rpm.generate_index arts =
      if arts = [] then .ok none
      else .ok (some (str "rpm-index.json",
        ⟨str "rpm-custom", arts.length, (arts.map (·.size_bytes)).sum,
         arts.map Rpm.entryOf⟩))) ∧
    (∀ arts : List Metadata, Pypi.generate_index arts =
      if arts = [] then .ok none
      else .ok (some ⟨str "simple/index.html",
        Pypi.rootIndexHtml (Pypi.index_packages arts), str "pypi-index.json",
        ⟨str "pypi-custom", arts.length, (arts.map (·.size_bytes)).sum,
         arts.map Pypi.entryOf⟩⟩)) ∧
    (∀ arts : List Metadata, Unity.generate_index arts =
      if arts = [] then .ok none
      else .ok (some (str "unity-index.json",
        ⟨str "unity", arts.length, (arts.map (·.size_bytes)).sum,
         arts.map Unity.entryOf⟩))) :=
  generate_index_ordering
    [⟨str "x-1-p-a-t.whl", some (str "1"), str "application/zip", 1, none⟩,
     ⟨str "y-2-p-a-t.whl", some (str "2"), str "application/zip", 2, none⟩]
    [⟨str "y-2-p-a-t.whl", some (str "2"), str "application/zip", 2, none⟩,
     ⟨str "x-1-p-a-t.whl", some (str "1"), str "application/zip", 1, none⟩]
    (by decide)

/-- `stripPre` of an exact prefix yields the remainder. -/
theorem stripPre_append (pre r : List Nat) : stripPre pre (pre ++ r) = some r := by
  unfold stripPre
  rw [if_pos (List.isPrefixOf_iff_prefix.mpr ⟨r, rfl⟩), List.drop_left]

/-- A successful `stripPre` recovers the decomposition. -/
theorem stripPre_eq_some (pre s r : List Nat) (h : stripPre pre s = some r) :
    s = pre ++ r := by
  unfold stripPre at h
  by_cases hp : pre.isPrefixOf s
  · rw [if_pos hp] at h
    obtain ⟨t, ht⟩ := List.isPrefixOf_iff_prefix.mp hp
    obtain rfl : s.drop pre.length = r := by simpa using h
    rw [← ht, List.drop_left]
  · rw [if_neg hp] at h; cases h

/-- `trimTrailing` is the identity when the last character is not the
separator. -/
theorem trimTrailing_id (sep : Nat) (l : List Nat)
    (h : ∀ x, l.getLast? = some x → x ≠ sep) : trimTrailing sep l = l := by
  unfold trimTrailing
  rw [dropWhile_id_of_head, List.reverse_reverse]
  intro x hx
  rw [List.head?_reverse] at hx
  simp only [decide_eq_false_iff_not]
  exact h x hx

/-- Lists differing at one position differ. -/
theorem ne_of_getElem? {l₁ l₂ : List Nat} (i : Nat) (h : l₁[i]? ≠ l₂[i]?) :
    l₁ ≠ l₂ :=
  fun he => h (he ▸ rfl)

/-- C8: for both routers, a GET for `/packages/{filename}` (and `/Packages/`
for RPM), with `{filename}` non-empty and slash-free, redirects with 302 and
`location` `{download_base_url}/{artifact.path}` and an empty body when some
artifact's final path segment equals the filename (the first such artifact),
and otherwise returns 404 with a plain-text body naming the missing artifact. -/
theorem package_download_routing (context : RepoContext) (artifacts : List Metadata)
    (fname q b : List Nat) (hdrs : List (List Nat × List Nat))
    (hne : fname ≠ []) (hns : 47 ∉ fname) :
    Pypi.handle_request ⟨str "GET", str "/packages/" ++ fname, q, hdrs, b⟩
        context artifacts =
      (match artifacts.find? (fun a => lastSegment a.path == fname) with
       | some a => .ok ⟨302,
           [(str "location", context.download_base_url ++ 47 :: a.path)], []⟩
       | none => .ok ⟨404, [(str "content-type", str "text/plain")],
           str "Package " ++ [39] ++ fname ++ [39] ++ str " not found"⟩) ∧
    Rpm.handle_request ⟨str "GET", str "/packages/" ++ fname, q, hdrs, b⟩
        context artifacts =
      (match artifacts.find? (fun a => lastSegment a.path == fname) with
       | some a => .ok ⟨302,
           [(str "location", context.download_base_url ++ 47 :: a.path)], []⟩
       | none => .ok ⟨404, [(str "content-type", str "text/plain")],
           str "Package " ++ [39] ++ fname ++ [39] ++ str " not found"⟩) ∧
    Rpm.handle_request ⟨str "GET", str "/Packages/" ++ fname, q, hdrs, b⟩
        context artifacts =
      (match artifacts.find? (fun a => lastSegment a.path == fname) with
       | some a => .ok ⟨302,
           [(str "location", context.download_base_url ++ 47 :: a.path)], []⟩
       | none => .ok ⟨404, [(str "content-type", str "text/plain")],
           str "Package " ++ [39] ++ fname ++ [39] ++ str " not found"⟩) := by
  have hlast : ∀ base : List Nat, trimTrailing 47 (base ++ fname) = base ++ fname := by
    intro base
    apply trimTrailing_id
    intro x hx
    rw [List.getLast?_append] at hx
    cases hfl : fname.getLast? with
    | none => exact absurd (List.getLast?_eq_none_iff.mp hfl) hne
    | some y =>
      rw [hfl] at hx
      obtain rfl : y = x := by simpa using hx
      exact fun h47 => hns (h47 ▸ List.mem_of_mem_getLast? hfl)
  have hcon : fname.contains 47 = false := by
    cases hcc : fname.contains 47 with
    | false => rfl
    | true => exact absurd (List.elem_iff.mp hcc) hns
  have hifc : fname.contains 47 = false ∧ fname ≠ [] := ⟨hcon, hne⟩
  refine ⟨?_, ?_, ?_⟩
  · unfold Pypi.handle_request
    rw [if_neg (by simp)]
    rw [if_neg (by
      push_neg
      refine ⟨?_, ?_, ?_⟩
      · exact ne_of_getElem? 1 (by
          have h1 : (str "/packages/" ++ fname)[1]? = some 112 := rfl
          rw [h1]; decide)
      · exact ne_of_getElem? 1 (by
          have h1 : (str "/packages/" ++ fname)[1]? = some 112 := rfl
          rw [h1]; decide)
      · exact ne_of_getElem? 1 (by
          have h1 : (str "/packages/" ++ fname)[1]? = some 112 := rfl
          rw [h1]; decide))]
    rw [hlast]
    unfold Pypi.route_simple
    have hs1 : stripPre (str "/simple/") (str "/packages/" ++ fname) = none := by
      cases hsp : stripPre (str "/simple/") (str "/packages/" ++ fname) with
      | none => rfl
      | some r =>
        have heq := stripPre_eq_some _ _ _ hsp
        have h1 : (str "/packages/" ++ fname)[1]? = some 112 := rfl
        rw [heq] at h1
        have h2 : (str "/simple/" ++ r)[1]? = some 115 := rfl
        exact absurd (h1.symm.trans h2) (by decide)
    rw [hs1]
    unfold Pypi.route_packages
    rw [stripPre_append]
    show (if fname.contains 47 = false ∧ fname ≠ [] then
        Pypi.handle_package_download fname context artifacts
      else Except.ok notFoundResponse) = _
    rw [if_pos hifc]
    rfl
  · unfold Rpm.handle_request
    rw [if_neg (by simp)]
    rw [hlast]
    have h1 : (str "/packages/" ++ fname)[1]? = some 112 := rfl
    rw [if_neg (ne_of_getElem? 1 (by rw [h1]; decide))]
    rw [if_neg (ne_of_getElem? 1 (by rw [h1]; decide))]
    rw [if_neg (ne_of_getElem? 1 (by rw [h1]; decide))]
    rw [if_neg (ne_of_getElem? 1 (by rw [h1]; decide))]
    unfold Rpm.route_packages
    rw [stripPre_append]
    show (if fname.contains 47 = false ∧ fname ≠ [] then
        Rpm.handle_package_download fname context artifacts
      else Except.ok notFoundResponse) = _
    rw [if_pos hifc]
    rfl
  · unfold Rpm.handle_request
    rw [if_neg (by simp)]
    rw [hlast]
    have h1 : (str "/Packages/" ++ fname)[1]? = some 80 := rfl
    rw [if_neg (ne_of_getElem? 1 (by rw [h1]; decide))]
    rw [if_neg (ne_of_getElem? 1 (by rw [h1]; decide))]
    rw [if_neg (ne_of_getElem? 1 (by rw [h1]; decide))]
    rw [if_neg (ne_of_getElem? 1 (by rw [h1]; decide))]
    unfold Rpm.route_packages
    have hp1 : stripPre (str "/packages/") (str "/Packages/" ++ fname) = none := by
      cases hsp : stripPre (str "/packages/") (str "/Packages/" ++ fname) with
      | none => rfl
      | some r =>
        have heq := stripPre_eq_some _ _ _ hsp
        have h2 : (str "/Packages/" ++ fname)[1]? = some 80 := rfl
        rw [heq] at h2
        have h3 : (str "/packages/" ++ r)[1]? = some 112 := rfl
        exact absurd (h2.symm.trans h3) (by decide)
    rw [hp1]
    rw [stripPre_append]
    show (if fname.contains 47 = false ∧ fname ≠ [] then
        Rpm.handle_package_download fname context artifacts
      else Except.ok notFoundResponse) = _
    rw [if_pos hifc]
    rfl

/-- Witness for C8 at a concrete context, artifact list and filename. -/
theorem package_download_routing_witness :
    Pypi.handle_request
        ⟨str "GET", str "/packages/" ++ str "x-1.0.rpm", [], [], []⟩
        ⟨str "k", str "http://h", str "http://h/dl"⟩
        [⟨str "pool/x-1.0.rpm", none, str "application/x-rpm", 1, none⟩] =
      (match [(⟨str "pool/x-1.0.rpm", none, str "application/x-rpm", 1, none⟩ :
          Metadata)].find? (fun a => lastSegment a.path == str "x-1.0.rpm") with
       | some a => .ok ⟨302,
           [(str "location", (⟨str "k", str "http://h", str "http://h/dl"⟩ :
              RepoContext).download_base_url ++ 47 :: a.path)], []⟩
       | none => .ok ⟨404, [(str "content-type", str "text/plain")],
           str "Package " ++ [39] ++ str "x-1.0.rpm" ++ [39] ++ str " not found"⟩) ∧
    Rpm.handle_request
        ⟨str "GET", str "/packages/" ++ str "x-1.0.rpm", [], [], []⟩
        ⟨str "k", str "http://h", str "http://h/dl"⟩
        [⟨str "pool/x-1.0.rpm", none, str "application/x-rpm", 1, none⟩] =
      (match [(⟨str "pool/x-1.0.rpm", none, str "application/x-rpm", 1, none⟩ :
          Metadata)].find? (fun a => lastSegment a.path == str "x-1.0.rpm") with
       | some a => .ok ⟨302,
           [(str "location", (⟨str "k", str "http://h", str "http://h/dl"⟩ :
              RepoContext).download_base_url ++ 47 :: a.path)], []⟩
       | none => .ok ⟨404, [(str "content-type", str "text/plain")],
           str "Package " ++ [39] ++ str "x-1.0.rpm" ++ [39] ++ str " not found"⟩) ∧
    Rpm.handle_request
        ⟨str "GET", str "/Packages/" ++ str "x-1.0.rpm", [], [], []⟩
        ⟨str "k", str "http://h", str "http://h/dl"⟩
        [⟨str "pool/x-1.0.rpm", none, str "application/x-rpm", 1, none⟩] =
      (match [(⟨str "pool/x-1.0.rpm", none, str "application/x-rpm", 1, none⟩ :
          Metadata)].find? (fun a => lastSegment a.path == str "x-1.0.rpm") with
       | some a => .ok ⟨302,
           [(str "location", (⟨str "k", str "http://h", str "http://h/dl"⟩ :
              RepoContext).download_base_url ++ 47 :: a.path)], []⟩
       | none => .ok ⟨404, [(str "content-type", str "text/plain")],
           str "Package " ++ [39] ++ str "x-1.0.rpm" ++ [39] ++ str " not found"⟩) :=
  package_download_routing ⟨str "k", str "http://h", str "http://h/dl"⟩
    [⟨str "pool/x-1.0.rpm", none, str "application/x-rpm", 1, none⟩]
    (str "x-1.0.rpm") [] [] [] (by decide) (by decide)

/-- One CRC32 round keeps the state below `2 ^ 32`. -/
theorem crc32Round_lt {crc : Nat} (h : crc < 4294967296) :
    Rpm.crc32Round crc < 4294967296 := by
  unfold Rpm.crc32Round
  split
  · have h1 : crc / 2 < 2 ^ 32 := by omega
    have h2 : (0xEDB88320 : Nat) < 2 ^ 32 := by norm_num
    have := Nat.xor_lt_two_pow h1 h2
    omega
  · omega

/-- Iterated CRC32 rounds keep the state below `2 ^ 32`. -/
theorem crc32Round_iterate_lt (n : Nat) {crc : Nat} (h : crc < 4294967296) :
    Rpm.crc32Round^[n] crc < 4294967296 := by
  induction n generalizing crc with
  | zero => simpa using h
  | succ m ih =>
    rw [Function.iterate_succ_apply]
    exact ih (crc32Round_lt h)

/-- Folding a byte into the CRC32 state keeps it below `2 ^ 32`. -/
theorem crc32Byte_lt {crc b : Nat} (hc : crc < 4294967296) (hb : b < 256) :
    Rpm.crc32Byte crc b < 4294967296 := by
  unfold Rpm.crc32Byte
  apply crc32Round_iterate_lt
  have h1 : crc < 2 ^ 32 := by omega
  have h2 : b < 2 ^ 32 := by omega
  have := Nat.xor_lt_two_pow h1 h2
  omega

/-- The CRC32 of a byte list is a `u32` value. -/
theorem crc32_lt (data : List Nat) (hb : ∀ x ∈ data, x < 256) :
    Rpm.crc32 data < 4294967296 := by
  unfold Rpm.crc32
  have hfold : ∀ (l : List Nat) (crc : Nat), (∀ x ∈ l, x < 256) →
      crc < 4294967296 → l.foldl Rpm.crc32Byte crc < 4294967296 := by
    intro l
    induction l with
    | nil => intro crc _ h; simpa using h
    | cons x xs ih =>
      intro crc hl hc
      rw [List.foldl_cons]
      exact ih _ (fun y hy => hl y (List.mem_cons_of_mem x hy))
        (crc32Byte_lt hc (hl x (by simp)))
  have h1 := hfold data 0xFFFFFFFF hb (by norm_num)
  have h2 : (0xFFFFFFFF : Nat) < 2 ^ 32 := by norm_num
  have := Nat.xor_lt_two_pow (show data.foldl Rpm.crc32Byte 0xFFFFFFFF < 2 ^ 32 by omega) h2
  omega

/-- Chunking with enough fuel flattens back to the input. -/
theorem chunksAux_flatten : ∀ (fuel : Nat) (l : List Nat), l.length ≤ fuel →
    (Rpm.chunksAux fuel l).flatten = l := by
  intro fuel
  induction fuel with
  | zero =>
    intro l h
    obtain rfl : l = [] := by
      cases l with
      | nil => rfl
      | cons x xs => simp at h
    rfl
  | succ f ih =>
    intro l h
    simp only [Rpm.chunksAux]
    by_cases hl : l = []
    · rw [if_pos hl, hl]; rfl
    · rw [if_neg hl]
      have hlen : (l.drop 65535).length ≤ f := by
        rw [List.length_drop]
        have : l.length ≠ 0 := fun hz => hl (List.length_eq_zero.mp hz)
        omega
      simp only [List.flatten_cons, ih (l.drop 65535) hlen, List.take_append_drop]

/-- Every chunk is at most 65535 bytes. -/
theorem chunksAux_bound : ∀ (fuel : Nat) (l : List Nat),
    ∀ c ∈ Rpm.chunksAux fuel l, c.length ≤ 65535 := by
  intro fuel
  induction fuel with
  | zero => intro l c hc; cases hc
  | succ f ih =>
    intro l c hc
    simp only [Rpm.chunksAux] at hc
    by_cases hl : l = []
    · rw [if_pos hl] at hc; cases hc
    · rw [if_neg hl] at hc
      rcases List.mem_cons.mp hc with rfl | hmem
      · simp
      · exact ih _ c hmem

/-- Chunking a non-empty list with fuel yields at least one chunk. -/
theorem chunksAux_ne_nil (fuel : Nat) (l : List Nat) (hl : l ≠ [])
    (hf : 1 ≤ fuel) : Rpm.chunksAux fuel l ≠ [] := by
  cases fuel with
  | zero => omega
  | succ f =>
    simp only [Rpm.chunksAux]
    rw [if_neg hl]
    simp

/-- A stored block is its chunk plus 5 framing bytes. -/
theorem storedBlock_length (b : Bool) (c : List Nat) :
    (Rpm.storedBlock b c).length = 5 + c.length := by
  simp only [Rpm.storedBlock, toLE2, List.length_cons, List.length_append,
    List.length_nil]
  omega

/-- Each stored block contributes at least one byte. -/
theorem encodeBlocks_length_ge : ∀ cs : List (List Nat),
    cs.length ≤ (Rpm.encodeBlocks cs).length := by
  intro cs
  induction cs with
  | nil => simp [Rpm.encodeBlocks]
  | cons c cs' ih =>
    cases cs' with
    | nil =>
      simp only [Rpm.encodeBlocks, storedBlock_length, List.length_cons,
        List.length_nil]
      omega
    | cons c' cs'' =>
      simp only [Rpm.encodeBlocks, List.length_append, storedBlock_length] at *
      simp only [List.length_cons] at *
      omega

/-- Reading back the encoded stored blocks consumes exactly them, appending
the concatenated chunks to the accumulator and leaving the trailer. -/
theorem readBlocks_encode : ∀ (cs : List (List Nat)) (fuel : Nat)
    (rest acc : List Nat), cs ≠ [] → (∀ c ∈ cs, c.length ≤ 65535) →
    cs.length ≤ fuel →
    readBlocks fuel (Rpm.encodeBlocks cs ++ rest) acc =
      some (acc ++ cs.flatten, rest) := by
  intro cs
  induction cs with
  | nil => intro fuel rest acc hne _ _; exact absurd rfl hne
  | cons c cs' ih =>
    intro fuel rest acc _ hb hf
    have hc : c.length ≤ 65535 := hb c (by simp)
    have hmod : c.length % 65536 = c.length := Nat.mod_eq_of_lt (by omega)
    have hxlt : (65535 ^^^ c.length) < 65536 := by
      have h1 : (65535 : Nat) < 2 ^ 16 := by norm_num
      have h2 : c.length < 2 ^ 16 := by
        have : (2 : Nat) ^ 16 = 65536 := by norm_num
        omega
      have := Nat.xor_lt_two_pow h1 h2
      have he : (2 : Nat) ^ 16 = 65536 := by norm_num
      omega
    have hlenrec : (c.length % 256) + 256 * (c.length / 256 % 256) = c.length := by
      omega
    have hnlenrec : ((65535 ^^^ c.length) % 256) +
        256 * ((65535 ^^^ c.length) / 256 % 256) = 65535 ^^^ c.length := by
      omega
    cases fuel with
    | zero => simp at hf
    | succ f =>
      cases cs' with
      | nil =>
        have hform : Rpm.encodeBlocks [c] ++ rest =
            1 :: (c.length % 256) :: (c.length / 256 % 256) ::
            ((65535 ^^^ c.length) % 256) :: ((65535 ^^^ c.length) / 256 % 256) ::
            (c ++ rest) := by
          simp [Rpm.encodeBlocks, Rpm.storedBlock, toLE2, hmod]
        rw [hform]
        simp only [readBlocks]
        rw [hlenrec, hnlenrec]
        rw [if_pos ⟨rfl, by simp⟩]
        simp only [if_true, if_false]
        rw [List.take_left, List.drop_left]
        simp
      | cons c' cs'' =>
        have hform : Rpm.encodeBlocks (c :: c' :: cs'') ++ rest =
            0 :: (c.length % 256) :: (c.length / 256 % 256) ::
            ((65535 ^^^ c.length) % 256) :: ((65535 ^^^ c.length) / 256 % 256) ::
            (c ++ (Rpm.encodeBlocks (c' :: cs'') ++ rest)) := by
          simp [Rpm.encodeBlocks, Rpm.storedBlock, toLE2, hmod]
        rw [hform]
        simp only [readBlocks]
        rw [hlenrec, hnlenrec]
        rw [if_pos ⟨rfl, by simp⟩]
        simp only [if_true, if_false]
        rw [List.take_left, List.drop_left]
        rw [ih f rest (acc ++ c) (by simp) (fun d hd => hb d (by simp [hd]))
          (by simp at hf ⊢; omega)]
        simp

/-- Peeling the fixed gzip header off the decoder. -/
theorem gzipDecode_header (B : List Nat) :
    gzipDecode (Rpm.GZIP_HEADER ++ B) =
      (match readBlocks B.length B [] with
       | some (payload, [c0, c1, c2, c3, s0, s1, s2, s3]) =>
         if c0 + 256 * c1 + 65536 * c2 + 16777216 * c3 = Rpm.crc32 payload ∧
             s0 + 256 * s1 + 65536 * s2 + 16777216 * s3 =
               payload.length % 4294967296 then
           some payload
         else none
       | _ => none) := rfl

/-- C1: `gzip_compress` always succeeds; its output decodes, under a standard
RFC 1952/1951 stored-block decoder, back to exactly the input bytes; the
trailer carries the CRC32 and the length mod `2 ^ 32`, little-endian, and the
empty input yields exactly one well-formed stored block of length 0. -/
theorem gzip_compress_roundtrip (data : List Nat) (hb : ∀ x ∈ data, x < 256) :
    Rpm.gzip_compress data = .ok (Rpm.GZIP_HEADER ++
      Rpm.encodeBlocks (Rpm.gzipChunks data) ++
      toLE4 (Rpm.crc32 data) ++ toLE4 (data.length % 4294967296)) ∧
    gzipDecode (Rpm.GZIP_HEADER ++ Rpm.encodeBlocks (Rpm.gzipChunks data) ++
      toLE4 (Rpm.crc32 data) ++ toLE4 (data.length % 4294967296)) = some data ∧
    Rpm.gzipChunks [] = [[]] ∧
    Rpm.gzip_compress [] = .ok (Rpm.GZIP_HEADER ++ [1, 0, 0, 255, 255] ++
      [0, 0, 0, 0] ++ [0, 0, 0, 0]) := by
  refine ⟨rfl, ?_, rfl, by decide⟩
  have hcrc := crc32_lt data hb
  have hsize : data.length % 4294967296 < 4294967296 := Nat.mod_lt _ (by norm_num)
  have hchunks_ne : Rpm.gzipChunks data ≠ [] := by
    unfold Rpm.gzipChunks
    by_cases hd : data = []
    · rw [if_pos hd]; simp
    · rw [if_neg hd]
      refine chunksAux_ne_nil _ _ hd ?_
      cases hdata : data with
      | nil => exact absurd hdata hd
      | cons x xs => simp [hdata]
  have hchunks_bound : ∀ c ∈ Rpm.gzipChunks data, c.length ≤ 65535 := by
    unfold Rpm.gzipChunks
    by_cases hd : data = []
    · rw [if_pos hd]; intro c hc; simp at hc; simp [hc]
    · rw [if_neg hd]; exact chunksAux_bound _ _
  have hflatten : (Rpm.gzipChunks data).flatten = data := by
    unfold Rpm.gzipChunks
    by_cases hd : data = []
    · rw [if_pos hd, hd]; rfl
    · rw [if_neg hd]; exact chunksAux_flatten _ _ (Nat.le_refl _)
  rw [List.append_assoc, List.append_assoc, ← List.append_assoc
    (Rpm.encodeBlocks (Rpm.gzipChunks data))]
  rw [gzipDecode_header]
  rw [List.append_assoc (Rpm.encodeBlocks (Rpm.gzipChunks data))]
  rw [readBlocks_encode (Rpm.gzipChunks data) _ _ [] hchunks_ne hchunks_bound
    (le_trans (encodeBlocks_length_ge _) (by simp))]
  rw [hflatten]
  simp only [toLE4, List.cons_append, List.nil_append]
  rw [if_pos ⟨by omega, by omega⟩]

/-- Witness for C1 at a concrete three-byte input. -/
theorem gzip_compress_roundtrip_witness :
    Rpm.gzip_compress [65, 66, 67] = .ok (Rpm.GZIP_HEADER ++
      Rpm.encodeBlocks (Rpm.gzipChunks [65, 66, 67]) ++
      toLE4 (Rpm.crc32 [65, 66, 67]) ++
      toLE4 (([65, 66, 67] : List Nat).length % 4294967296)) ∧
    gzipDecode (Rpm.GZIP_HEADER ++ Rpm.encodeBlocks (Rpm.gzipChunks [65, 66, 67]) ++
      toLE4 (Rpm.crc32 [65, 66, 67]) ++
      toLE4 (([65, 66, 67] : List Nat).length % 4294967296)) = some [65, 66, 67] ∧
    Rpm.gzipChunks [] = [[]] ∧
    Rpm.gzip_compress [] = .ok (Rpm.GZIP_HEADER ++ [1, 0, 0, 255, 255] ++
      [0, 0, 0, 0] ++ [0, 0, 0, 0]) :=
  gzip_compress_roundtrip [65, 66, 67] (by decide)
